import Mathlib

/-!
Verification of the goecom order-placement subsystem.

This file gives a shallow embedding of the Go source of the goecom
storefront backend (packages `internal/store` and `internal/service`):
the relational state (products, cart items, orders, order items) is a
record of lists, Go `int` columns are modelled as `Int`, UUID primary
keys as `Nat` drawn from a freshness counter (gorm's `BeforeCreate`
hook), and database/transaction failures as an explicit error type.
GORM's `Transaction` combinator (store/db.go, `WithTransaction`) is
modelled by the all-or-nothing shape of each operation: an operation
that returns an error also returns the unchanged pre-state.
-/

namespace GoEcom

/-- A row of the `products` table (`internal/store` `Product` model:
id, sku, name, description, price_cents, currency, stock, images). -/
structure Product where
  id : Nat
  sku : String
  name : String
  description : String
  priceCents : Int
  currency : String
  stock : Int
deriving DecidableEq

/-- A row of the `cart_items` table (`CartItem` model: id, user_id,
product_id, quantity). -/
structure CartItem where
  id : Nat
  userID : Nat
  productID : Nat
  quantity : Int
deriving DecidableEq

/-- A row of the `orders` table (`Order` model: id, user_id, total_cents,
currency, status, shipping_address, created_at). -/
structure Order where
  id : Nat
  userID : Nat
  totalCents : Int
  currency : String
  status : String
  shippingAddress : String
  createdAt : Nat
deriving DecidableEq

/-- A row of the `order_items` table (`OrderItem` model: id, order_id,
product_id, price_cents, quantity). -/
structure OrderItem where
  id : Nat
  orderID : Nat
  productID : Nat
  priceCents : Int
  quantity : Int
deriving DecidableEq

/-- The error values the services return (`errors.New` / `fmt.Errorf`
messages in `internal/service` and `internal/store`). -/
inductive Err where
  /-- `"cart is empty"` (order_service.go, CreateOrder). -/
  | emptyCart : Err
  /-- `"product not found for cart item %s"` (order_service.go). -/
  | cartProductGone : Nat → Err
  /-- `"insufficient stock for product %s"` with the product NAME
  (order_service.go snapshot check). -/
  | insufficientStockFor : String → Err
  /-- `"insufficient stock for product %s"` with the product ID
  (product_repository.go, DecrementStock, zero rows affected). -/
  | insufficientStock : Nat → Err
  /-- `"insufficient stock"` (cart_service.go, AddToCart). -/
  | insufficientStockAdd : Err
  /-- `"product not found"` (cart_service.go, AddToCart). -/
  | productNotFound : Err
  /-- `"order not found"` (order_service.go). -/
  | orderNotFound : Err
  /-- `"unauthorized to view this order"` (order_service.go, GetOrder). -/
  | unauthorized : Err
  /-- `"invalid order status"` (order_service.go, UpdateOrderStatus). -/
  | invalidStatus : Err
  /-- An underlying persistence failure (gorm error), with the message
  the service wraps it in. -/
  | dbFailure : String → Err
deriving DecidableEq

/-- Result of a fallible operation (Go's `(T, error)` return shape). -/
inductive OpResult (α : Type) where
  | ok : α → OpResult α
  | err : Err → OpResult α
deriving DecidableEq

/-- The whole relational state, plus the id-freshness counter (standing
for `uuid.New()` in the `BeforeCreate` hooks) and a clock used for
`created_at` timestamps. -/
structure DBState where
  products : List Product
  cartItems : List CartItem
  orders : List Order
  orderItems : List OrderItem
  nextID : Nat
  now : Nat
deriving DecidableEq

/-- Row predicate of the conditional update in DecrementStock
(product_repository.go line 150): `WHERE id = ? AND stock >= ?`. -/
def stockRowMatches (productID : Nat) (quantity : Int) (p : Product) : Bool :=
  p.id == productID && decide (quantity ≤ p.stock)

/-- Effect of `UPDATE products SET stock = stock - ? WHERE id = ? AND
stock >= ?` on the products table (product_repository.go lines 149-151). -/
def applyStockUpdate (products : List Product) (productID : Nat) (quantity : Int) :
    List Product :=
  products.map fun p =>
    if stockRowMatches productID quantity p then
      { p with stock := p.stock - quantity }
    else p

/-- `RowsAffected` of that update. -/
def stockRowsAffected (products : List Product) (productID : Nat) (quantity : Int) : Nat :=
  (products.filter (stockRowMatches productID quantity)).length

/-- `ProductRepository.DecrementStock` (product_repository.go lines
142-162): run the conditional update; if it affected zero rows return
the insufficient-stock error, otherwise succeed with the updated table. -/
def DecrementStock (products : List Product) (productID : Nat) (quantity : Int) :
    OpResult (List Product) :=
  let updated := applyStockUpdate products productID quantity
  if stockRowsAffected products productID quantity == 0 then
    .err (.insufficientStock productID)
  else
    .ok updated

/-- `First(&product, "id = ?", id)`: the row a primary-key lookup finds. -/
def findProduct (products : List Product) (productID : Nat) : Option Product :=
  products.find? (fun p => p.id == productID)

/-- Injection points for underlying persistence failures inside the
order-creation transaction: `tx.Create(order)`, `tx.Create(&orderItems)`
and the cart-clearing `tx.Delete` can each fail with a gorm error
(order_service.go lines 97, 106, 111). -/
structure FailOracle where
  failCreateOrder : Bool
  failCreateItems : Bool
  failClearCart : Bool
deriving DecidableEq

/-- Accumulator of the per-cart-item loop in `OrderService.CreateOrder`
(order_service.go lines 59-86): the transaction's view of the products
table, `totalCents`, `currency`, and the staged `orderItems`. -/
structure TxLoopState where
  products : List Product
  totalCents : Int
  currency : String
  orderItems : List OrderItem
deriving DecidableEq

/-- The `for _, cartItem := range cartItems` loop of
`OrderService.CreateOrder` (order_service.go lines 62-86).  `snapshot`
is the products table as seen by the cart read of step 1 (each cart
item's `Product` was preloaded there); the stock check and the unit
price use that snapshot, while `DecrementStock` runs against the
transaction's current table. -/
def processCartItems (snapshot : List Product) (items : List CartItem)
    (acc : TxLoopState) : OpResult TxLoopState :=
  match items with
  | [] => .ok acc
  | item :: rest =>
    match findProduct snapshot item.productID with
    | none => .err (.cartProductGone item.id)
    | some prod =>
      if prod.stock < item.quantity then
        .err (.insufficientStockFor prod.name)
      else
        match DecrementStock acc.products item.productID item.quantity with
        | .err e => .err e
        | .ok products1 =>
          processCartItems snapshot rest
            { products := products1,
              totalCents := acc.totalCents + prod.priceCents * item.quantity,
              currency := prod.currency,
              orderItems := acc.orderItems ++
                [⟨0, 0, item.productID, prod.priceCents, item.quantity⟩] }

/-- Inserting the staged order items (order_service.go lines 102-106):
each gets a fresh id from the `BeforeCreate` hook and the new order's id. -/
def assignItemIDs (base : Nat) (orderID : Nat) : List OrderItem → List OrderItem
  | [] => []
  | i :: rest => { i with id := base, orderID := orderID } :: assignItemIDs (base + 1) orderID rest

/-- Body of the `WithTransaction` closure in `OrderService.CreateOrder`
(order_service.go lines 57-116): run the cart loop, insert the order row
(status "pending"), insert the order items, delete the user's cart rows.
Returns the post-commit state and the new order's id; any error aborts
the transaction. -/
def createOrderTxBody (st : DBState) (userID : Nat) (addr : String)
    (cart : List CartItem) (oracle : FailOracle) : OpResult (DBState × Nat) :=
  match processCartItems st.products cart ⟨st.products, 0, "USD", []⟩ with
  | .err e => .err e
  | .ok res =>
    if oracle.failCreateOrder then .err (.dbFailure "failed to create order")
    else
      let orderID := st.nextID
      let order : Order :=
        ⟨orderID, userID, res.totalCents, res.currency, "pending", addr, st.now⟩
      if oracle.failCreateItems then .err (.dbFailure "failed to create order items")
      else
        let items := assignItemIDs (st.nextID + 1) orderID res.orderItems
        if oracle.failClearCart then .err (.dbFailure "failed to clear cart")
        else
          .ok (⟨res.products,
                st.cartItems.filter (fun c => !(c.userID == userID)),
                st.orders ++ [order],
                st.orderItems ++ items,
                st.nextID + 1 + items.length,
                st.now + 1⟩, orderID)

/-- `OrderRepository.GetByID` (order_repository.go lines 48-58): load an
order by primary key with its `Items` preloaded. -/
def getOrderWithItems (st : DBState) (orderID : Nat) : Option (Order × List OrderItem) :=
  match st.orders.find? (fun o => o.id == orderID) with
  | none => none
  | some o => some (o, st.orderItems.filter (fun i => i.orderID == orderID))

/-- `CartRepository.GetByUserID` (cart_repository.go lines 38-45). -/
def cartOfUser (st : DBState) (userID : Nat) : List CartItem :=
  st.cartItems.filter (fun c => c.userID == userID)

/-- `OrderService.CreateOrder` (order_service.go lines 42-124): read the
cart; fail with the empty-cart error before any transaction when it is
empty; otherwise run the transaction body — on error the transaction
rolls back and the state is unchanged — and finally re-load the created
order with its items.  The returned `DBState` is the observable state
after the call. -/
def CreateOrder (st : DBState) (userID : Nat) (addr : String) (oracle : FailOracle) :
    DBState × OpResult (Order × List OrderItem) :=
  let cart := cartOfUser st userID
  if cart.isEmpty then (st, .err .emptyCart)
  else
    match createOrderTxBody st userID addr cart oracle with
    | .err e => (st, .err e)
    | .ok (st1, orderID) =>
      match getOrderWithItems st1 orderID with
      | none => (st1, .err .orderNotFound)
      | some oi => (st1, .ok oi)

/-- `OrderService.GetOrder` (order_service.go lines 127-142): load the
order (not-found error if the record does not exist), then the ownership
check. -/
def GetOrder (st : DBState) (orderID : Nat) (userID : Nat) :
    OpResult (Order × List OrderItem) :=
  match getOrderWithItems st orderID with
  | none => .err .orderNotFound
  | some (o, items) =>
    if o.userID == userID then .ok (o, items) else .err .unauthorized

/-- The fixed status allow-list of `OrderService.UpdateOrderStatus`
(order_service.go lines 157-162). -/
def validStatuses : List String := ["pending", "paid", "shipped", "cancelled"]

/-- `OrderService.UpdateOrderStatus` (order_service.go lines 155-179):
validate the status against the allow-list first, then check existence,
then save the order with the new status. -/
def UpdateOrderStatus (st : DBState) (orderID : Nat) (status : String) :
    DBState × OpResult Unit :=
  if !(validStatuses.contains status) then (st, .err .invalidStatus)
  else
    match st.orders.find? (fun o => o.id == orderID) with
    | none => (st, .err .orderNotFound)
    | some _ =>
      ({ st with orders := st.orders.map fun o =>
        if o.id == orderID then { o with status := status } else o }, .ok ())

/-- `CartRepository.AddOrUpdate` (cart_repository.go lines 20-35): look
up an existing row for the (user, product) pair; if found, save that row
with the new quantity; otherwise insert the item as a new row (with a
fresh id from the `BeforeCreate` hook). -/
def AddOrUpdate (cartItems : List CartItem) (item : CartItem) (freshID : Nat) :
    List CartItem :=
  match cartItems.find? (fun c => c.userID == item.userID && c.productID == item.productID) with
  | some existing =>
    cartItems.map fun c =>
      if c.id == existing.id then { c with quantity := item.quantity } else c
  | none => cartItems ++ [{ item with id := freshID }]

/-- `CartService.AddToCart` (cart_service.go lines 50-77): the product
must exist and have stock at least the requested quantity; then
`AddOrUpdate` the cart row. -/
def AddToCart (st : DBState) (userID : Nat) (productID : Nat) (quantity : Int) :
    DBState × OpResult Unit :=
  match findProduct st.products productID with
  | none => (st, .err .productNotFound)
  | some p =>
    if p.stock < quantity then (st, .err .insufficientStockAdd)
    else
      ({ st with
          cartItems := AddOrUpdate st.cartItems ⟨0, userID, productID, quantity⟩ st.nextID,
          nextID := st.nextID + 1 }, .ok ())

/-- `CartService.RemoveFromCart` / `CartRepository.Delete`
(cart_repository.go lines 61-65): delete the row with the given id
belonging to the user. -/
def RemoveFromCart (st : DBState) (userID : Nat) (itemID : Nat) : DBState :=
  { st with cartItems := st.cartItems.filter fun c => !(c.id == itemID && c.userID == userID) }

/-- `CartService.ClearCart` / `CartRepository.Clear` (cart_repository.go
lines 68-72): delete every cart row of the user. -/
def ClearCart (st : DBState) (userID : Nat) : DBState :=
  { st with cartItems := st.cartItems.filter fun c => !(c.userID == userID) }

/-- `ProductRepository.Create` (product_repository.go lines 40-42):
unconditional insert of a product row with a fresh id. -/
def CreateProduct (st : DBState) (sku name description : String)
    (priceCents : Int) (currency : String) (stock : Int) : DBState :=
  { st with
      products := st.products ++ [⟨st.nextID, sku, name, description, priceCents, currency, stock⟩],
      nextID := st.nextID + 1 }

/-- `ProductRepository.Update` (product_repository.go lines 133-135):
`Save` writes the given record over the row with the same primary key. -/
def UpdateProduct (st : DBState) (p : Product) : DBState :=
  { st with products := st.products.map fun q => if q.id == p.id then p else q }

/-- Descending-creation-time order used by `ORDER BY created_at DESC`
(order_repository.go lines 84 and 117). -/
def createdDesc (a b : Order) : Prop := b.createdAt ≤ a.createdAt

instance : DecidableRel createdDesc := fun a b => Nat.decLe b.createdAt a.createdAt

instance : IsTotal Order createdDesc :=
  ⟨fun a b => Nat.le_total b.createdAt a.createdAt⟩

instance : IsTrans Order createdDesc :=
  ⟨fun _ _ _ h1 h2 => Nat.le_trans h2 h1⟩

/-- `if page < 1 { page = 1 }` (order_repository.go lines 62-64). -/
def clampPage (page : Int) : Int := if page < 1 then 1 else page

/-- `if size < 1 { size = 20 }` (order_repository.go lines 65-67). -/
def sizeDefault (size : Int) : Int := if size < 1 then 20 else size

/-- `if size > 100 { size = 100 }` (order_repository.go lines 68-70). -/
def sizeCap (size : Int) : Int := if size > 100 then 100 else size

/-- The shared pagination pattern of `OrderRepository.GetByUserID` and
`OrderRepository.List` (order_repository.go lines 61-90 and 93-123):
clamp `page` to at least 1 and `size` into [1,100] with default 20
(applied in the source's order), count the total, sort by creation time
descending, and return the page at `OFFSET (page-1)*size LIMIT size`. -/
def pageOfOrders (l : List Order) (page size : Int) : List Order × Nat :=
  (((l.insertionSort createdDesc).drop
     ((clampPage page - 1) * sizeCap (sizeDefault size)).toNat).take
       (sizeCap (sizeDefault size)).toNat,
   l.length)

/-- `OrderService.ListUserOrders` / `OrderRepository.GetByUserID`
(order_repository.go lines 61-90): the user's orders, paginated. -/
def ListUserOrders (st : DBState) (userID : Nat) (page size : Int) :
    List Order × Nat :=
  pageOfOrders (st.orders.filter fun o => o.userID == userID) page size

/-- `OrderService.ListAllOrders` / `OrderRepository.List`
(order_repository.go lines 93-123): all orders, paginated. -/
def ListAllOrders (st : DBState) (page size : Int) : List Order × Nat :=
  pageOfOrders st.orders page size

/-- A sequence of `CreateOrder` calls (the order-placement requests of
§8 of the design): each step observes the state the previous call left. -/
structure CreateOrderReq where
  userID : Nat
  addr : String
  oracle : FailOracle
deriving DecidableEq

/-- Run a sequence of `CreateOrder` steps, keeping each call's resulting
observable state. -/
def runOrders (st : DBState) (reqs : List CreateOrderReq) : DBState :=
  reqs.foldl (fun s r => (CreateOrder s r.userID r.addr r.oracle).1) st

/-- The stock column of the product row with the given id. -/
def stockOf (products : List Product) (productID : Nat) : Option Int :=
  (findProduct products productID).map Product.stock

/-- Total quantity over the order items that reference a given product. -/
def qtySumFor (productID : Nat) (items : List OrderItem) : Int :=
  ((items.filter (fun i => i.productID == productID)).map (fun i => i.quantity)).sum

/-- Total quantity recorded in order items for a given product: every
order item is the receipt of exactly one committed stock decrement. -/
def decrementedQty (st : DBState) (productID : Nat) : Int :=
  qtySumFor productID st.orderItems

/-- Sum of `priceCents * quantity` over a list of order items. -/
def itemsSum (items : List OrderItem) : Int :=
  (items.map (fun i => i.priceCents * i.quantity)).sum

/-- The no-failure oracle. -/
def noFail : FailOracle := ⟨false, false, false⟩

example :
    DecrementStock [⟨1, "sku", "n", "", 100, "USD", 5⟩] 1 3 =
      .ok [⟨1, "sku", "n", "", 100, "USD", 2⟩] := by decide

example :
    DecrementStock [⟨1, "sku", "n", "", 100, "USD", 2⟩] 1 3 =
      .err (.insufficientStock 1) := by decide

example :
    DecrementStock [⟨1, "sku", "n", "", 100, "USD", 2⟩] 9 1 =
      .err (.insufficientStock 9) := by decide

/-! ### Generic list facts used throughout -/

/-- A primary-key lookup: when the keys of a table are distinct, `find?`
by key locates any given member. -/
theorem find?_key_of_mem {α β : Type} [DecidableEq β] (f : α → β) :
    ∀ (l : List α), (l.map f).Nodup → ∀ a ∈ l, l.find? (fun x => f x == f a) = some a := by
  intro l
  induction l with
  | nil => intro _ a ha; cases ha
  | cons x xs ih =>
    intro hnd a ha
    rw [List.map_cons, List.nodup_cons] at hnd
    rcases List.mem_cons.mp ha with rfl | ha
    · exact List.find?_cons_of_pos _ (by simp)
    · have hne : f x ≠ f a := fun h => hnd.1 (h ▸ List.mem_map_of_mem f ha)
      rw [List.find?_cons_of_neg _ (by simpa using hne)]
      exact ih hnd.2 a ha

/-- Filtering commutes with a map that does not change the predicate. -/
theorem filter_map_pred_inv {α : Type} (g : α → α) (p : α → Bool)
    (h : ∀ a, p (g a) = p a) :
    ∀ l : List α, (l.map g).filter p = (l.filter p).map g := by
  intro l
  induction l with
  | nil => rfl
  | cons x xs ih =>
    rw [List.map_cons, List.filter_cons, List.filter_cons, h x]
    by_cases hx : p x = true
    · rw [if_pos hx, if_pos hx, List.map_cons, ih]
    · rw [if_neg hx, if_neg hx, ih]

/-- A `Pairwise` list whose relation rules out two hits of a predicate
contains at most one hit. -/
theorem length_filter_le_one_of_pairwise {α : Type} {R : α → α → Prop} (p : α → Bool)
    (hPR : ∀ a b, p a = true → p b = true → R a b → False) :
    ∀ l : List α, l.Pairwise R → (l.filter p).length ≤ 1 := by
  intro l
  induction l with
  | nil => intro _; simp
  | cons x xs ih =>
    intro hpw
    rw [List.pairwise_cons] at hpw
    rw [List.filter_cons]
    by_cases hx : p x = true
    · rw [if_pos hx]
      have : xs.filter p = [] := by
        rw [List.filter_eq_nil_iff]
        intro b hb hpb
        exact hPR x b hx hpb (hpw.1 b hb)
      rw [this]
      simp
    · rw [if_neg hx]
      exact ih hpw.2

/-- Composition of two `Forall₂` correspondences. -/
theorem forall₂_compose {α β γ : Type} {R : α → β → Prop} {Q : β → γ → Prop}
    {S : α → γ → Prop} (hcomp : ∀ a b c, R a b → Q b c → S a c) :
    ∀ {l1 : List α} {l2 : List β} {l3 : List γ},
      List.Forall₂ R l1 l2 → List.Forall₂ Q l2 l3 → List.Forall₂ S l1 l3 := by
  intro l1
  induction l1 with
  | nil =>
    intro l2 l3 h12 h23
    cases h12; cases h23; exact List.Forall₂.nil
  | cons a l1 ih =>
    intro l2 l3 h12 h23
    cases h12 with
    | cons hab h12 =>
      cases h23 with
      | cons hbc h23 => exact List.Forall₂.cons (hcomp _ _ _ hab hbc) (ih h12 h23)

/-! ### The conditional stock decrement -/

/-- The conditional update only rewrites the stock column. -/
theorem stockRow_id (pid : Nat) (q : Int) (p : Product) :
    (if stockRowMatches pid q p then { p with stock := p.stock - q } else p).id = p.id := by
  by_cases h : stockRowMatches pid q p = true <;> simp [h]

/-- Ids of the products table survive the conditional update. -/
theorem applyStockUpdate_map_id (ps : List Product) (pid : Nat) (q : Int) :
    (applyStockUpdate ps pid q).map Product.id = ps.map Product.id := by
  unfold applyStockUpdate
  rw [List.map_map]
  exact List.map_congr_left fun p _ => stockRow_id pid q p

/-- Primary-key lookup after the conditional update. -/
theorem findProduct_applyStockUpdate (ps : List Product) (pid : Nat) (q : Int) (x : Nat) :
    findProduct (applyStockUpdate ps pid q) x =
      (findProduct ps x).map
        (fun p => if stockRowMatches pid q p then { p with stock := p.stock - q } else p) := by
  unfold findProduct applyStockUpdate
  rw [List.find?_map]
  have hpred : ((fun p : Product => p.id == x) ∘
      fun p => if stockRowMatches pid q p then { p with stock := p.stock - q } else p) =
      (fun p : Product => p.id == x) := by
    funext p
    simp only [Function.comp_apply]
    rw [stockRow_id]
  rw [hpred]

/-- The row a primary-key lookup returns carries that key. -/
theorem findProduct_some_id {ps : List Product} {pid : Nat} {p : Product}
    (h : findProduct ps pid = some p) : p.id = pid := by
  unfold findProduct at h
  simpa using List.find?_some h

/-- The row a primary-key lookup returns is in the table. -/
theorem findProduct_some_mem {ps : List Product} {pid : Nat} {p : Product}
    (h : findProduct ps pid = some p) : p ∈ ps := by
  unfold findProduct at h
  exact List.mem_of_find?_eq_some h

/-- `RowsAffected = 0` means no row passed the `WHERE` clause. -/
theorem stockRowsAffected_eq_zero_iff (ps : List Product) (pid : Nat) (q : Int) :
    stockRowsAffected ps pid q = 0 ↔ ∀ p ∈ ps, ¬stockRowMatches pid q p = true := by
  unfold stockRowsAffected
  rw [List.length_eq_zero, List.filter_eq_nil_iff]

/-- When some row passes the `WHERE` clause, the decrement succeeds with
the updated table. -/
theorem DecrementStock_ok_of (ps : List Product) (pid : Nat) (q : Int)
    (h : ∃ p ∈ ps, stockRowMatches pid q p = true) :
    DecrementStock ps pid q = .ok (applyStockUpdate ps pid q) := by
  unfold DecrementStock
  rcases h with ⟨p, hp, hm⟩
  have hne : ¬stockRowsAffected ps pid q = 0 := fun h0 =>
    (stockRowsAffected_eq_zero_iff ps pid q).mp h0 p hp hm
  simp [hne]

/-- When no row passes the `WHERE` clause, the decrement fails with the
insufficient-stock error. -/
theorem DecrementStock_err_of (ps : List Product) (pid : Nat) (q : Int)
    (h : ∀ p ∈ ps, ¬stockRowMatches pid q p = true) :
    DecrementStock ps pid q = .err (.insufficientStock pid) := by
  unfold DecrementStock
  simp [(stockRowsAffected_eq_zero_iff ps pid q).mpr h]

/-- A successful decrement came from a passing row and returns the
updated table. -/
theorem DecrementStock_ok_elim {ps ps1 : List Product} {pid : Nat} {q : Int}
    (h : DecrementStock ps pid q = .ok ps1) :
    (∃ p ∈ ps, stockRowMatches pid q p = true) ∧ ps1 = applyStockUpdate ps pid q := by
  unfold DecrementStock at h
  by_cases h0 : stockRowsAffected ps pid q = 0
  · simp [h0] at h
  · refine ⟨?_, by simpa [h0] using h.symm⟩
    by_contra hnone
    push_neg at hnone
    exact h0 ((stockRowsAffected_eq_zero_iff ps pid q).mpr fun p hp => by
      intro hm; exact hnone p hp hm)

/-- A failing `WHERE` clause leaves the table untouched. -/
theorem applyStockUpdate_id_of_none (ps : List Product) (pid : Nat) (q : Int)
    (h : ∀ p ∈ ps, ¬stockRowMatches pid q p = true) :
    applyStockUpdate ps pid q = ps := by
  unfold applyStockUpdate
  have heq : ∀ p ∈ ps,
      (if stockRowMatches pid q p then { p with stock := p.stock - q } else p) = p :=
    fun p hp => if_neg (h p hp)
  rw [List.map_congr_left heq]
  simp

/-- Stock of the decremented row after a passing update. -/
theorem stockOf_applyStockUpdate_self (ps : List Product) (pid : Nat) (q : Int)
    (p : Product) (hfind : findProduct ps pid = some p) (hq : q ≤ p.stock) :
    stockOf (applyStockUpdate ps pid q) pid = some (p.stock - q) := by
  unfold stockOf
  rw [findProduct_applyStockUpdate, hfind]
  have hid : p.id = pid := findProduct_some_id hfind
  have hm : stockRowMatches pid q p = true := by
    unfold stockRowMatches
    simp [hid, hq]
  simp [Option.map_map, hm]

/-- Stock of every other row is unchanged by the update. -/
theorem stockOf_applyStockUpdate_other (ps : List Product) (pid : Nat) (q : Int)
    (x : Nat) (hx : x ≠ pid) :
    stockOf (applyStockUpdate ps pid q) x = stockOf ps x := by
  unfold stockOf
  rw [findProduct_applyStockUpdate]
  cases hf : findProduct ps x with
  | none => rfl
  | some p =>
    have hne : p.id ≠ pid := by
      have : p.id = x := findProduct_some_id hf
      omega
    have hm : stockRowMatches pid q p = false := by
      unfold stockRowMatches
      simp [hne]
    simp [hm]

/-- The update preserves non-negativity of every stock: a row is only
decremented when its own stock covers the quantity. -/
theorem applyStockUpdate_nonneg (ps : List Product) (pid : Nat) (q : Int)
    (h : ∀ p ∈ ps, 0 ≤ p.stock) :
    ∀ p ∈ applyStockUpdate ps pid q, 0 ≤ p.stock := by
  unfold applyStockUpdate
  intro p hp
  rcases List.mem_map.mp hp with ⟨r, hr, rfl⟩
  by_cases hm : stockRowMatches pid q r = true
  · have : q ≤ r.stock := by
      unfold stockRowMatches at hm
      exact of_decide_eq_true (Bool.and_elim_right hm)
    simp only [hm, if_true]
    omega
  · simp only [hm]
    simpa using h r hr

/-- Both conjuncts of a passing `WHERE` clause. -/
theorem stockRowMatches_elim {pid : Nat} {q : Int} {p : Product}
    (h : stockRowMatches pid q p = true) : p.id = pid ∧ q ≤ p.stock := by
  unfold stockRowMatches at h
  simpa using h

/-- Building a passing `WHERE` clause. -/
theorem stockRowMatches_intro {pid : Nat} {q : Int} {p : Product}
    (h1 : p.id = pid) (h2 : q ≤ p.stock) : stockRowMatches pid q p = true := by
  unfold stockRowMatches
  simp [h1, h2]

/-- Under distinct product ids, lookup of a member's id returns it. -/
theorem findProduct_of_mem_nodup {ps : List Product} (hnd : (ps.map Product.id).Nodup)
    {p : Product} (hp : p ∈ ps) : findProduct ps p.id = some p :=
  find?_key_of_mem Product.id ps hnd p hp

/-- Unpacking a stock lookup. -/
theorem stockOf_eq_some_elim {ps : List Product} {pid : Nat} {s : Int}
    (h : stockOf ps pid = some s) :
    ∃ p, findProduct ps pid = some p ∧ p.stock = s := by
  unfold stockOf at h
  exact Option.map_eq_some'.mp h

/-! ### Sums over order items -/

theorem itemsSum_nil : itemsSum [] = 0 := rfl

theorem itemsSum_cons (i : OrderItem) (l : List OrderItem) :
    itemsSum (i :: l) = i.priceCents * i.quantity + itemsSum l := by
  unfold itemsSum
  rw [List.map_cons, List.sum_cons]

theorem itemsSum_append (l1 l2 : List OrderItem) :
    itemsSum (l1 ++ l2) = itemsSum l1 + itemsSum l2 := by
  unfold itemsSum
  rw [List.map_append, List.sum_append]

theorem qtySumFor_nil (pid : Nat) : qtySumFor pid [] = 0 := rfl

theorem qtySumFor_cons (pid : Nat) (i : OrderItem) (l : List OrderItem) :
    qtySumFor pid (i :: l) =
      (if i.productID = pid then i.quantity else 0) + qtySumFor pid l := by
  unfold qtySumFor
  rw [List.filter_cons]
  by_cases h : i.productID = pid
  · simp [h]
  · simp [h]

theorem qtySumFor_append (pid : Nat) (l1 l2 : List OrderItem) :
    qtySumFor pid (l1 ++ l2) = qtySumFor pid l1 + qtySumFor pid l2 := by
  unfold qtySumFor
  rw [List.filter_append, List.map_append, List.sum_append]

/-! ### The cart-processing loop -/

/-- Correspondence between a cart line and the order item staged for it:
same product, same quantity, and the unit price frozen from the cart-read
snapshot. -/
def lineFor (snapshot : List Product) (c : CartItem) (oi : OrderItem) : Prop :=
  oi.productID = c.productID ∧ oi.quantity = c.quantity ∧
    ∃ p, findProduct snapshot c.productID = some p ∧ oi.priceCents = p.priceCents

/-- Everything a successful run of the cart loop guarantees: the staged
order items extend the accumulator by lines matching the cart one-to-one,
the running total grows by exactly their price-weighted sum, product ids
are untouched, non-negative stocks stay non-negative, and (under distinct
product ids) each product's stock drops by exactly the staged quantity
that references it. -/
theorem processCartItems_ok (snapshot : List Product) :
    ∀ (items : List CartItem) (acc res : TxLoopState),
    processCartItems snapshot items acc = .ok res →
    ∃ newItems : List OrderItem,
      res.orderItems = acc.orderItems ++ newItems ∧
      res.totalCents = acc.totalCents + itemsSum newItems ∧
      List.Forall₂ (lineFor snapshot) items newItems ∧
      res.products.map Product.id = acc.products.map Product.id ∧
      ((∀ p ∈ acc.products, 0 ≤ p.stock) → ∀ p ∈ res.products, 0 ≤ p.stock) ∧
      ((acc.products.map Product.id).Nodup →
        ∀ pid s, stockOf acc.products pid = some s →
          stockOf res.products pid = some (s - qtySumFor pid newItems)) := by
  intro items
  induction items with
  | nil =>
    intro acc res h
    unfold processCartItems at h
    cases h
    refine ⟨[], (List.append_nil _).symm, by rw [itemsSum_nil, add_zero],
      List.Forall₂.nil, rfl, fun hn => hn, fun _ pid s hs => ?_⟩
    rw [qtySumFor_nil, sub_zero]
    exact hs
  | cons item rest ih =>
    intro acc res h
    unfold processCartItems at h
    cases hfp : findProduct snapshot item.productID with
    | none => rw [hfp] at h; exact OpResult.noConfusion h
    | some prod =>
      rw [hfp] at h
      dsimp only at h
      by_cases hst : prod.stock < item.quantity
      · rw [if_pos hst] at h; exact OpResult.noConfusion h
      · rw [if_neg hst] at h
        cases hdec : DecrementStock acc.products item.productID item.quantity with
        | err e => rw [hdec] at h; exact OpResult.noConfusion h
        | ok products1 =>
          rw [hdec] at h
          dsimp only at h
          obtain ⟨hex, hupd⟩ := DecrementStock_ok_elim hdec
          obtain ⟨ni, h1, h2, h3, h4, h5, h6⟩ := ih _ res h
          subst hupd
          refine ⟨⟨0, 0, item.productID, prod.priceCents, item.quantity⟩ :: ni,
            ?_, ?_, ?_, ?_, ?_, ?_⟩
          · rw [h1]
            simp [List.append_assoc]
          · rw [h2, itemsSum_cons]
            dsimp only
            rw [add_assoc]
          · exact List.Forall₂.cons ⟨rfl, rfl, prod, hfp, rfl⟩ h3
          · rw [h4]
            exact applyStockUpdate_map_id acc.products item.productID item.quantity
          · intro hnn
            refine h5 ?_
            exact applyStockUpdate_nonneg acc.products item.productID item.quantity hnn
          · intro hnd pid s hs
            have hnd1 : ((applyStockUpdate acc.products item.productID
                item.quantity).map Product.id).Nodup := by
              rw [applyStockUpdate_map_id]; exact hnd
            by_cases hpid : item.productID = pid
            · subst hpid
              rcases hex with ⟨pm, hpm, hmm⟩
              obtain ⟨hpmid, hpmq⟩ := stockRowMatches_elim hmm
              have hfindm : findProduct acc.products item.productID = some pm := by
                rw [← hpmid]
                exact findProduct_of_mem_nodup hnd hpm
              obtain ⟨p0, hp0, hp0s⟩ := stockOf_eq_some_elim hs
              rw [hfindm] at hp0
              cases hp0
              have hstep : stockOf (applyStockUpdate acc.products item.productID
                  item.quantity) item.productID = some (s - item.quantity) := by
                rw [← hp0s]
                exact stockOf_applyStockUpdate_self acc.products item.productID
                  item.quantity pm hfindm hpmq
              have := h6 hnd1 item.productID (s - item.quantity) hstep
              rw [this, qtySumFor_cons, sub_sub]
              simp
            · have hstep : stockOf (applyStockUpdate acc.products item.productID
                  item.quantity) pid = some s := by
                rw [stockOf_applyStockUpdate_other acc.products item.productID
                  item.quantity pid (fun hcc => hpid hcc.symm)]
                exact hs
              have := h6 hnd1 pid s hstep
              rw [this, qtySumFor_cons]
              simp only [hpid, if_false]
              rw [zero_add]

/-! ### Inserting the staged order items -/

/-- Inserting staged items only assigns ids: product, price, quantity are
kept, and the order id is set. -/
theorem assignItemIDs_forall₂ (oid : Nat) :
    ∀ (l : List OrderItem) (base : Nat),
      List.Forall₂ (fun i j => j.productID = i.productID ∧ j.priceCents = i.priceCents ∧
        j.quantity = i.quantity ∧ j.orderID = oid) l (assignItemIDs base oid l) := by
  intro l
  induction l with
  | nil => intro _; exact List.Forall₂.nil
  | cons i rest ih => intro base; exact List.Forall₂.cons ⟨rfl, rfl, rfl, rfl⟩ (ih (base + 1))

theorem assignItemIDs_orderID (oid : Nat) :
    ∀ (l : List OrderItem) (base : Nat), ∀ j ∈ assignItemIDs base oid l, j.orderID = oid := by
  intro l
  induction l with
  | nil => intro _ j hj; cases hj
  | cons i rest ih =>
    intro base j hj
    rcases List.mem_cons.mp hj with rfl | hj
    · rfl
    · exact ih (base + 1) j hj

theorem itemsSum_assignItemIDs (oid : Nat) :
    ∀ (l : List OrderItem) (base : Nat), itemsSum (assignItemIDs base oid l) = itemsSum l := by
  intro l
  induction l with
  | nil => intro _; rfl
  | cons i rest ih =>
    intro base
    unfold assignItemIDs
    rw [itemsSum_cons, itemsSum_cons, ih (base + 1)]

theorem qtySumFor_assignItemIDs (pid oid : Nat) :
    ∀ (l : List OrderItem) (base : Nat),
      qtySumFor pid (assignItemIDs base oid l) = qtySumFor pid l := by
  intro l
  induction l with
  | nil => intro _; rfl
  | cons i rest ih =>
    intro base
    unfold assignItemIDs
    rw [qtySumFor_cons, qtySumFor_cons, ih (base + 1)]

/-! ### The order-creation transaction body -/

/-- Everything a successful transaction body did: the cart loop
succeeded, no injected persistence failure fired, the new order id is the
fresh id, and the committed state is exactly the staged one. -/
theorem createOrderTxBody_ok_elim {st : DBState} {u : Nat} {addr : String}
    {cart : List CartItem} {oracle : FailOracle} {st1 : DBState} {oid : Nat}
    (h : createOrderTxBody st u addr cart oracle = .ok (st1, oid)) :
    ∃ res : TxLoopState,
      processCartItems st.products cart ⟨st.products, 0, "USD", []⟩ = .ok res ∧
      oid = st.nextID ∧
      st1 = ⟨res.products,
             st.cartItems.filter (fun c => !(c.userID == u)),
             st.orders ++ [⟨st.nextID, u, res.totalCents, res.currency, "pending", addr, st.now⟩],
             st.orderItems ++ assignItemIDs (st.nextID + 1) st.nextID res.orderItems,
             st.nextID + 1 + (assignItemIDs (st.nextID + 1) st.nextID res.orderItems).length,
             st.now + 1⟩ := by
  unfold createOrderTxBody at h
  cases hp : processCartItems st.products cart ⟨st.products, 0, "USD", []⟩ with
  | err e => rw [hp] at h; exact OpResult.noConfusion h
  | ok res =>
    rw [hp] at h
    dsimp only at h
    cases h1 : oracle.failCreateOrder with
    | true => rw [h1] at h; simp at h
    | false =>
      rw [h1] at h
      cases h2 : oracle.failCreateItems with
      | true => rw [h2] at h; simp at h
      | false =>
        rw [h2] at h
        cases h3 : oracle.failClearCart with
        | true => rw [h3] at h; simp at h
        | false =>
          rw [h3] at h
          simp only [Bool.false_eq_true, if_false] at h
          cases h
          exact ⟨res, rfl, rfl, rfl⟩

/-! ### The full CreateOrder call -/

/-- The post-commit reload of the created order always finds a row: the
order was appended by the same call. -/
theorem getOrderWithItems_of_append {st1 : DBState} {oid : Nat}
    (horders : ∃ l o, st1.orders = l ++ [o] ∧ o.id = oid) :
    ∃ x, getOrderWithItems st1 oid = some x := by
  rcases horders with ⟨l, o, hl, hid⟩
  unfold getOrderWithItems
  rw [hl, List.find?_append]
  cases hfl : l.find? (fun o => o.id == oid) with
  | some o1 =>
    rw [Option.or_some]
    exact ⟨_, rfl⟩
  | none =>
    rw [Option.none_or]
    have : List.find? (fun o => o.id == oid) [o] = some o :=
      List.find?_cons_of_pos _ (by simp [hid])
    rw [this]
    exact ⟨_, rfl⟩

/-- Rollback: whenever `CreateOrder` reports an error, the observable
state is the pre-call state. -/
theorem CreateOrder_err_state {st : DBState} {u : Nat} {addr : String} {oracle : FailOracle}
    {e : Err} (h : (CreateOrder st u addr oracle).2 = .err e) :
    (CreateOrder st u addr oracle).1 = st := by
  unfold CreateOrder at h ⊢
  by_cases hemp : (cartOfUser st u).isEmpty = true
  · rw [if_pos hemp]
  · rw [if_neg hemp] at h ⊢
    cases htx : createOrderTxBody st u addr (cartOfUser st u) oracle with
    | err e1 => rfl
    | ok p =>
      obtain ⟨st1, oid⟩ := p
      rw [htx] at h
      dsimp only at h
      obtain ⟨res, hres, hoid, hst1⟩ := createOrderTxBody_ok_elim htx
      have hsome : ∃ x, getOrderWithItems st1 oid = some x :=
        getOrderWithItems_of_append ⟨st.orders, _, by rw [hst1], by rw [hoid]⟩
      rcases hsome with ⟨x, hx⟩
      rw [hx] at h
      exact OpResult.noConfusion h

/-- Everything a successful `CreateOrder` call did, given that the ids of
pre-existing orders and the order references of pre-existing order items
are below the fresh id (gorm's fresh UUIDs): the cart loop succeeded and
the returned order/items are exactly the rows the transaction inserted. -/
theorem CreateOrder_ok_elim {st st1 : DBState} {u : Nat} {addr : String}
    {oracle : FailOracle} {order : Order} {items : List OrderItem}
    (hOrd : ∀ o ∈ st.orders, o.id < st.nextID)
    (hIt : ∀ i ∈ st.orderItems, i.orderID < st.nextID)
    (h : CreateOrder st u addr oracle = (st1, .ok (order, items))) :
    ∃ res : TxLoopState,
      processCartItems st.products (cartOfUser st u) ⟨st.products, 0, "USD", []⟩ = .ok res ∧
      order = ⟨st.nextID, u, res.totalCents, res.currency, "pending", addr, st.now⟩ ∧
      items = assignItemIDs (st.nextID + 1) st.nextID res.orderItems ∧
      st1 = ⟨res.products,
             st.cartItems.filter (fun c => !(c.userID == u)),
             st.orders ++ [order],
             st.orderItems ++ items,
             st.nextID + 1 + items.length,
             st.now + 1⟩ := by
  unfold CreateOrder at h
  by_cases hemp : (cartOfUser st u).isEmpty = true
  · rw [if_pos hemp] at h
    injection h with h1 h2
    exact OpResult.noConfusion h2
  · rw [if_neg hemp] at h
    cases htx : createOrderTxBody st u addr (cartOfUser st u) oracle with
    | err e1 =>
      rw [htx] at h
      dsimp only at h
      injection h with h1 h2
      exact OpResult.noConfusion h2
    | ok p =>
      obtain ⟨st2, oid⟩ := p
      rw [htx] at h
      dsimp only at h
      obtain ⟨res, hres, hoid, hst2⟩ := createOrderTxBody_ok_elim htx
      subst hoid
      subst hst2
      have hfind : (st.orders ++
          [(⟨st.nextID, u, res.totalCents, res.currency, "pending", addr, st.now⟩ : Order)]).find?
            (fun o => o.id == st.nextID) =
          some ⟨st.nextID, u, res.totalCents, res.currency, "pending", addr, st.now⟩ := by
        rw [List.find?_append]
        have hnone : st.orders.find? (fun o => o.id == st.nextID) = none := by
          rw [List.find?_eq_none]
          intro o ho
          have := hOrd o ho
          simp only [beq_iff_eq]
          omega
        rw [hnone, Option.none_or]
        exact List.find?_cons_of_pos _ (by simp)
      have hitems : (st.orderItems ++
            assignItemIDs (st.nextID + 1) st.nextID res.orderItems).filter
            (fun i => i.orderID == st.nextID) =
          assignItemIDs (st.nextID + 1) st.nextID res.orderItems := by
        rw [List.filter_append]
        have hold : st.orderItems.filter (fun i => i.orderID == st.nextID) = [] := by
          rw [List.filter_eq_nil_iff]
          intro i hi
          have := hIt i hi
          simp only [beq_iff_eq]
          omega
        have hnew : (assignItemIDs (st.nextID + 1) st.nextID res.orderItems).filter
            (fun i => i.orderID == st.nextID) =
            assignItemIDs (st.nextID + 1) st.nextID res.orderItems := by
          rw [List.filter_eq_self]
          intro j hj
          have := assignItemIDs_orderID st.nextID res.orderItems (st.nextID + 1) j hj
          simp [this]
        rw [hold, hnew, List.nil_append]
      unfold getOrderWithItems at h
      dsimp only at h
      rw [hfind] at h
      dsimp only at h
      rw [hitems] at h
      injection h with h1 h2
      injection h2 with h2
      injection h2 with h3 h4
      refine ⟨res, hres, h3.symm, h4.symm, ?_⟩
      rw [← h1, ← h3, ← h4]

/-- A map that does not change order ids commutes with primary-key lookup. -/
theorem findOrder_map (g : Order → Order) (hg : ∀ o, (g o).id = o.id)
    (l : List Order) (x : Nat) :
    (l.map g).find? (fun o => o.id == x) = (l.find? (fun o => o.id == x)).map g := by
  rw [List.find?_map]
  have hpred : ((fun o : Order => o.id == x) ∘ g) = (fun o : Order => o.id == x) := by
    funext o
    simp only [Function.comp_apply]
    rw [hg]
  rw [hpred]

/-- Reloading an order that was appended with fresh ids returns exactly
the appended row and its items. -/
theorem getOrderWithItems_created (st2 : DBState) (ordersOld : List Order)
    (itemsOld : List OrderItem) (order : Order) (items : List OrderItem)
    (ho : st2.orders = ordersOld ++ [order])
    (hi : st2.orderItems = itemsOld ++ items)
    (hOld : ∀ o ∈ ordersOld, o.id ≠ order.id)
    (hItOld : ∀ i ∈ itemsOld, i.orderID ≠ order.id)
    (hNew : ∀ j ∈ items, j.orderID = order.id) :
    getOrderWithItems st2 order.id = some (order, items) := by
  unfold getOrderWithItems
  rw [ho, hi, List.find?_append]
  have hnone : ordersOld.find? (fun o => o.id == order.id) = none := by
    rw [List.find?_eq_none]
    intro o hoo
    simpa using hOld o hoo
  rw [hnone, Option.none_or, List.find?_cons_of_pos _ (by simp)]
  dsimp only
  rw [List.filter_append]
  have h1 : itemsOld.filter (fun i => i.orderID == order.id) = [] := by
    rw [List.filter_eq_nil_iff]
    intro i hii
    simpa using hItOld i hii
  have h2 : items.filter (fun i => i.orderID == order.id) = items := by
    rw [List.filter_eq_self]
    intro j hj
    simp [hNew j hj]
  rw [h1, h2, List.nil_append]

/-- The facts about a successful `CreateOrder` that the functional
claims need, bundled: total = price-weighted sum of the returned items,
status pending, fresh order id, one-to-one correspondence of items with
the pre-call cart at snapshot prices, cart rows of the user deleted, and
order/items appended. -/
theorem CreateOrder_ok_master {st st1 : DBState} {u : Nat} {addr : String}
    {oracle : FailOracle} {order : Order} {items : List OrderItem}
    (hOrd : ∀ o ∈ st.orders, o.id < st.nextID)
    (hIt : ∀ i ∈ st.orderItems, i.orderID < st.nextID)
    (h : CreateOrder st u addr oracle = (st1, .ok (order, items))) :
    order.totalCents = itemsSum items ∧
    order.status = "pending" ∧
    order.id = st.nextID ∧
    List.Forall₂ (fun (c : CartItem) (oi : OrderItem) =>
      oi.productID = c.productID ∧ oi.quantity = c.quantity ∧
      ∃ p, findProduct st.products c.productID = some p ∧ oi.priceCents = p.priceCents)
      (cartOfUser st u) items ∧
    st1.cartItems = st.cartItems.filter (fun c => !(c.userID == u)) ∧
    st1.orders = st.orders ++ [order] ∧
    st1.orderItems = st.orderItems ++ items ∧
    (∀ j ∈ items, j.orderID = order.id) := by
  obtain ⟨res, hres, horder, hitems, hst1⟩ := CreateOrder_ok_elim hOrd hIt h
  obtain ⟨ni, h1, h2, h3, _, _, _⟩ :=
    processCartItems_ok st.products (cartOfUser st u) ⟨st.products, 0, "USD", []⟩ res hres
  dsimp only at h1 h2
  rw [List.nil_append] at h1
  rw [zero_add] at h2
  have hsum : itemsSum items = itemsSum res.orderItems := by
    rw [hitems, itemsSum_assignItemIDs]
  have hforall : List.Forall₂ (fun (c : CartItem) (oi : OrderItem) =>
      oi.productID = c.productID ∧ oi.quantity = c.quantity ∧
      ∃ p, findProduct st.products c.productID = some p ∧ oi.priceCents = p.priceCents)
      (cartOfUser st u) items := by
    have hassign := assignItemIDs_forall₂ st.nextID res.orderItems (st.nextID + 1)
    rw [← hitems] at hassign
    rw [h1] at hassign
    refine forall₂_compose ?_ h3 hassign
    intro c i j hci hij
    obtain ⟨hp1, hq1, p, hfp, hpr⟩ := hci
    obtain ⟨hp2, hpr2, hq2, _⟩ := hij
    exact ⟨by rw [hp2, hp1], by rw [hq2, hq1], p, hfp, by rw [hpr2, hpr]⟩
  refine ⟨?_, ?_, ?_, hforall, ?_, ?_, ?_, ?_⟩
  · rw [horder]
    dsimp only
    rw [h2, ← h1, ← hsum]
  · rw [horder]
  · rw [horder]
  · rw [hst1]
  · rw [hst1]
  · rw [hst1]
  · intro j hj
    rw [horder]
    dsimp only
    rw [hitems] at hj
    exact assignItemIDs_orderID st.nextID res.orderItems (st.nextID + 1) j hj

/-! ### Claim theorems and witnesses -/

/-- C1: `DecrementStock(productId, quantity)` is the single conditional
update `UPDATE products SET stock = stock - quantity WHERE id = productId
AND stock >= quantity`: it decrements the product's stock by exactly
`quantity` when a row with that id exists with stock at least `quantity`
(leaving every other product's stock unchanged), and otherwise — whether
the product is missing or its stock is too low — returns the one
insufficient-stock error and leaves every product's stock unchanged. -/
theorem C1_decrementStock_conditional (products : List Product) (productID : Nat)
    (quantity : Int) (hnd : (products.map Product.id).Nodup) :
    (∀ p ∈ products, p.id = productID → quantity ≤ p.stock →
      DecrementStock products productID quantity =
        .ok (applyStockUpdate products productID quantity) ∧
      stockOf (applyStockUpdate products productID quantity) productID =
        some (p.stock - quantity) ∧
      ∀ x, x ≠ productID →
        stockOf (applyStockUpdate products productID quantity) x = stockOf products x) ∧
    ((∀ p ∈ products, p.id = productID → p.stock < quantity) →
      DecrementStock products productID quantity = .err (.insufficientStock productID) ∧
      applyStockUpdate products productID quantity = products) := by
  constructor
  · intro p hp hid hq
    refine ⟨DecrementStock_ok_of _ _ _ ⟨p, hp, stockRowMatches_intro hid hq⟩, ?_, ?_⟩
    · have hfind : findProduct products productID = some p := by
        rw [← hid]
        exact findProduct_of_mem_nodup hnd hp
      exact stockOf_applyStockUpdate_self products productID quantity p hfind hq
    · intro x hx
      exact stockOf_applyStockUpdate_other products productID quantity x hx
  · intro hall
    have hnone : ∀ p ∈ products, ¬stockRowMatches productID quantity p = true := by
      intro p hp hm
      obtain ⟨hid, hq⟩ := stockRowMatches_elim hm
      have := hall p hp hid
      omega
    exact ⟨DecrementStock_err_of _ _ _ hnone, applyStockUpdate_id_of_none _ _ _ hnone⟩

theorem C1_decrementStock_conditional_witness :
    DecrementStock [⟨1, "sku", "P", "", 100, "USD", 5⟩] 1 3 =
      .ok (applyStockUpdate [⟨1, "sku", "P", "", 100, "USD", 5⟩] 1 3) ∧
    DecrementStock [⟨1, "sku", "P", "", 100, "USD", 2⟩] 1 3 =
      .err (.insufficientStock 1) := by
  constructor
  · exact ((C1_decrementStock_conditional [⟨1, "sku", "P", "", 100, "USD", 5⟩] 1 3
      (by decide)).1 ⟨1, "sku", "P", "", 100, "USD", 5⟩ (by decide) rfl (by decide)).1
  · exact ((C1_decrementStock_conditional [⟨1, "sku", "P", "", 100, "USD", 2⟩] 1 3
      (by decide)).2 (by decide)).1

/-- C6: a user whose cart is empty gets the empty-cart error from
`CreateOrder` before the mutating transaction opens — for every failure
oracle (the transaction's failure points are never reached), the call
returns the unchanged state: no order row, no stock change, no cart
change. -/
theorem C6_emptyCart_rejection (st : DBState) (u : Nat) (addr : String)
    (oracle : FailOracle) (h : cartOfUser st u = []) :
    CreateOrder st u addr oracle = (st, .err .emptyCart) := by
  unfold CreateOrder
  rw [h]
  rfl

theorem C6_emptyCart_rejection_witness :
    CreateOrder ⟨[⟨1, "sku", "P", "", 100, "USD", 5⟩], [⟨2, 7, 1, 3⟩], [], [], 3, 10⟩ 8 "addr"
        ⟨true, true, true⟩ =
      (⟨[⟨1, "sku", "P", "", 100, "USD", 5⟩], [⟨2, 7, 1, 3⟩], [], [], 3, 10⟩,
        .err .emptyCart) :=
  C6_emptyCart_rejection _ 8 "addr" ⟨true, true, true⟩ (by decide)

/-- C8: `GetOrder` returns the not-found error when no order with the id
exists; when the order exists but is not owned by the requester it
returns the distinguishable unauthorized error (existence is checked
first); and when the owner asks, it returns the order with its line
items loaded.  The two error values are distinct. -/
theorem C8_getOrder_trichotomy (st : DBState) (orderID userID : Nat) :
    ((∀ o ∈ st.orders, o.id ≠ orderID) →
      GetOrder st orderID userID = .err .orderNotFound) ∧
    ((st.orders.map Order.id).Nodup →
      ∀ o ∈ st.orders, o.id = orderID →
        (o.userID ≠ userID → GetOrder st orderID userID = .err .unauthorized) ∧
        (o.userID = userID → GetOrder st orderID userID =
          .ok (o, st.orderItems.filter (fun i => i.orderID == orderID)))) ∧
    Err.orderNotFound ≠ Err.unauthorized := by
  refine ⟨?_, ?_, by decide⟩
  · intro hnone
    unfold GetOrder getOrderWithItems
    have : st.orders.find? (fun o => o.id == orderID) = none := by
      rw [List.find?_eq_none]
      intro o ho
      simpa using hnone o ho
    rw [this]
  · intro hnd o ho hid
    have hfind : st.orders.find? (fun o => o.id == orderID) = some o := by
      rw [← hid]
      exact find?_key_of_mem Order.id st.orders hnd o ho
    constructor
    · intro hown
      unfold GetOrder getOrderWithItems
      rw [hfind]
      dsimp only
      rw [if_neg (by simpa using hown)]
    · intro hown
      unfold GetOrder getOrderWithItems
      rw [hfind]
      dsimp only
      rw [if_pos (by simpa using hown)]

theorem C8_getOrder_trichotomy_witness :
    GetOrder ⟨[], [], [⟨5, 7, 300, "USD", "pending", "a", 10⟩],
        [⟨6, 5, 1, 100, 3⟩], 9, 11⟩ 4 7 = .err .orderNotFound ∧
    GetOrder ⟨[], [], [⟨5, 7, 300, "USD", "pending", "a", 10⟩],
        [⟨6, 5, 1, 100, 3⟩], 9, 11⟩ 5 8 = .err .unauthorized ∧
    GetOrder ⟨[], [], [⟨5, 7, 300, "USD", "pending", "a", 10⟩],
        [⟨6, 5, 1, 100, 3⟩], 9, 11⟩ 5 7 =
      .ok (⟨5, 7, 300, "USD", "pending", "a", 10⟩, [⟨6, 5, 1, 100, 3⟩]) := by
  refine ⟨?_, ?_, ?_⟩
  · exact (C8_getOrder_trichotomy ⟨[], [], [⟨5, 7, 300, "USD", "pending", "a", 10⟩],
      [⟨6, 5, 1, 100, 3⟩], 9, 11⟩ 4 7).1 (by decide)
  · exact (((C8_getOrder_trichotomy ⟨[], [], [⟨5, 7, 300, "USD", "pending", "a", 10⟩],
      [⟨6, 5, 1, 100, 3⟩], 9, 11⟩ 5 8).2.1 (by decide)
      ⟨5, 7, 300, "USD", "pending", "a", 10⟩ (by decide) rfl).1 (by decide))
  · have := (((C8_getOrder_trichotomy ⟨[], [], [⟨5, 7, 300, "USD", "pending", "a", 10⟩],
      [⟨6, 5, 1, 100, 3⟩], 9, 11⟩ 5 7).2.1 (by decide)
      ⟨5, 7, 300, "USD", "pending", "a", 10⟩ (by decide) rfl).2 rfl)
    rw [this]
    decide

/-- C9: `UpdateOrderStatus` validates the new status against the fixed
allow-list {pending, paid, shipped, cancelled} before looking the order
up — an invalid status yields the invalid-status error even for a
nonexistent order; a valid status on a nonexistent order yields the
not-found error; and a valid status on an existing order succeeds and
replaces that order's status (whatever its current status was — no
transition constraint), leaving all other orders unchanged. -/
theorem C9_updateOrderStatus (st : DBState) (orderID : Nat) (status : String) :
    (status ∉ validStatuses →
      UpdateOrderStatus st orderID status = (st, .err .invalidStatus)) ∧
    (status ∈ validStatuses → (∀ o ∈ st.orders, o.id ≠ orderID) →
      UpdateOrderStatus st orderID status = (st, .err .orderNotFound)) ∧
    (status ∈ validStatuses → (st.orders.map Order.id).Nodup →
      ∀ o ∈ st.orders, o.id = orderID →
        (UpdateOrderStatus st orderID status).2 = .ok () ∧
        (UpdateOrderStatus st orderID status).1.orders.find? (fun x => x.id == orderID) =
          some { o with status := status } ∧
        ∀ x ∈ st.orders, x.id ≠ orderID →
          x ∈ (UpdateOrderStatus st orderID status).1.orders) := by
  refine ⟨?_, ?_, ?_⟩
  · intro hmem
    unfold UpdateOrderStatus
    have : validStatuses.contains status = false := by
      simp [List.elem_iff]
      exact hmem
    rw [this]
    rfl
  · intro hmem hnone
    unfold UpdateOrderStatus
    have hc : validStatuses.contains status = true := by
      simp [List.elem_iff]
      exact hmem
    rw [hc]
    have : st.orders.find? (fun o => o.id == orderID) = none := by
      rw [List.find?_eq_none]
      intro o ho
      simpa using hnone o ho
    rw [this]
    rfl
  · intro hmem hnd o ho hid
    have hc : validStatuses.contains status = true := by
      simp [List.elem_iff]
      exact hmem
    have hfind : st.orders.find? (fun x => x.id == orderID) = some o := by
      rw [← hid]
      exact find?_key_of_mem Order.id st.orders hnd o ho
    have hred : UpdateOrderStatus st orderID status =
        ({ st with orders := st.orders.map fun o =>
          if o.id == orderID then { o with status := status } else o }, .ok ()) := by
      unfold UpdateOrderStatus
      rw [hc, hfind]
      rfl
    refine ⟨by rw [hred], ?_, ?_⟩
    · rw [hred]
      dsimp only
      rw [findOrder_map _
        (fun x => by by_cases hx : (x.id == orderID) = true <;> simp [hx]) st.orders orderID]
      rw [hfind, Option.map_some']
      rw [if_pos (by simp [hid])]
    · intro x hx hxid
      rw [hred]
      dsimp only
      have hgx : (if (x.id == orderID) = true then { x with status := status } else x) = x :=
        if_neg (by simp [hxid])
      rw [← hgx]
      exact List.mem_map_of_mem _ hx

theorem C9_updateOrderStatus_witness :
    (UpdateOrderStatus ⟨[], [], [], [], 0, 0⟩ 5 "bogus" =
      (⟨[], [], [], [], 0, 0⟩, .err .invalidStatus)) ∧
    (UpdateOrderStatus ⟨[], [], [], [], 0, 0⟩ 5 "paid" =
      (⟨[], [], [], [], 0, 0⟩, .err .orderNotFound)) ∧
    (UpdateOrderStatus ⟨[], [], [⟨5, 7, 300, "USD", "shipped", "a", 10⟩], [], 9, 11⟩
        5 "pending").2 = .ok () := by
  refine ⟨?_, ?_, ?_⟩
  · exact (C9_updateOrderStatus _ 5 "bogus").1 (by decide)
  · exact (C9_updateOrderStatus _ 5 "paid").2.1 (by decide) (by decide)
  · exact ((C9_updateOrderStatus _ 5 "pending").2.2 (by decide) (by decide)
      ⟨5, 7, 300, "USD", "shipped", "a", 10⟩ (by decide) rfl).1

/-- C3: atomicity of order placement — if `CreateOrder` fails for any
reason once underway (missing product or insufficient stock on any cart
line, or an injected persistence failure while creating the order,
creating the line items, or clearing the cart), then afterwards no order
row, no order-item row, and no stock change from the attempt is
observable, and the user's cart rows are exactly as before. -/
theorem C3_atomicity (st : DBState) (u : Nat) (addr : String) (oracle : FailOracle)
    (e : Err) (h : (CreateOrder st u addr oracle).2 = .err e) :
    (CreateOrder st u addr oracle).1.orders = st.orders ∧
    (CreateOrder st u addr oracle).1.orderItems = st.orderItems ∧
    (CreateOrder st u addr oracle).1.products = st.products ∧
    (CreateOrder st u addr oracle).1.cartItems = st.cartItems := by
  rw [CreateOrder_err_state h]
  exact ⟨rfl, rfl, rfl, rfl⟩

theorem C3_atomicity_witness :
    (CreateOrder ⟨[⟨1, "sku", "P", "", 100, "USD", 2⟩], [⟨2, 7, 1, 3⟩], [], [], 3, 10⟩
        7 "addr" noFail).1.cartItems = [⟨2, 7, 1, 3⟩] ∧
    (CreateOrder ⟨[⟨1, "sku", "P", "", 100, "USD", 5⟩], [⟨2, 7, 1, 3⟩], [], [], 3, 10⟩
        7 "addr" ⟨false, true, false⟩).1.products = [⟨1, "sku", "P", "", 100, "USD", 5⟩] := by
  constructor
  · exact (C3_atomicity ⟨[⟨1, "sku", "P", "", 100, "USD", 2⟩], [⟨2, 7, 1, 3⟩], [], [], 3, 10⟩
      7 "addr" noFail (.insufficientStockFor "P") (by decide)).2.2.2
  · exact (C3_atomicity ⟨[⟨1, "sku", "P", "", 100, "USD", 5⟩], [⟨2, 7, 1, 3⟩], [], [], 3, 10⟩
      7 "addr" ⟨false, true, false⟩ (.dbFailure "failed to create order items")
      (by decide)).2.2.1

/-- C4: total correctness — for every order a successful `CreateOrder`
returns, its `totalCents` equals the sum of `priceCents * quantity` over
its line items, each line item's `priceCents` is the product price from
the cart-read snapshot, and the stored order and items are unchanged by
any later product update (in particular a price change): the total is
never recomputed. -/
theorem C4_total_correctness (st st1 : DBState) (u : Nat) (addr : String)
    (oracle : FailOracle) (order : Order) (items : List OrderItem)
    (hOrd : ∀ o ∈ st.orders, o.id < st.nextID)
    (hIt : ∀ i ∈ st.orderItems, i.orderID < st.nextID)
    (h : CreateOrder st u addr oracle = (st1, .ok (order, items))) :
    order.totalCents = itemsSum items ∧
    List.Forall₂ (fun (c : CartItem) (oi : OrderItem) =>
      ∃ p, findProduct st.products c.productID = some p ∧ oi.priceCents = p.priceCents)
      (cartOfUser st u) items ∧
    ∀ q : Product, getOrderWithItems (UpdateProduct st1 q) order.id = some (order, items) := by
  obtain ⟨htotal, _, hid, hlines, _, horders, hoi, hnew⟩ := CreateOrder_ok_master hOrd hIt h
  refine ⟨htotal, hlines.imp (fun c oi hc => hc.2.2), ?_⟩
  intro q
  refine getOrderWithItems_created (UpdateProduct st1 q) st.orders st.orderItems order items
    horders hoi ?_ ?_ hnew
  · intro o ho
    have := hOrd o ho
    omega
  · intro i hi
    have := hIt i hi
    omega

theorem C4_total_correctness_witness :
    ((⟨3, 7, 300, "USD", "pending", "addr", 10⟩ : Order)).totalCents =
      itemsSum [⟨4, 3, 1, 100, 3⟩] :=
  (C4_total_correctness ⟨[⟨1, "sku", "P", "", 100, "USD", 5⟩], [⟨2, 7, 1, 3⟩], [], [], 3, 10⟩
    ⟨[⟨1, "sku", "P", "", 100, "USD", 2⟩], [], [⟨3, 7, 300, "USD", "pending", "addr", 10⟩],
      [⟨4, 3, 1, 100, 3⟩], 5, 11⟩
    7 "addr" noFail ⟨3, 7, 300, "USD", "pending", "addr", 10⟩ [⟨4, 3, 1, 100, 3⟩]
    (by decide) (by decide) (by decide)).1

/-- C5: cart-clear exactness — after every successful `CreateOrder` the
user's cart holds exactly zero items, the created order's status is
"pending", and its line items correspond one-to-one, in order, with the
pre-placement cart items: same product ids, same quantities, and unit
prices equal to the snapshot prices at cart-read time. -/
theorem C5_cart_clear_exactness (st st1 : DBState) (u : Nat) (addr : String)
    (oracle : FailOracle) (order : Order) (items : List OrderItem)
    (hOrd : ∀ o ∈ st.orders, o.id < st.nextID)
    (hIt : ∀ i ∈ st.orderItems, i.orderID < st.nextID)
    (h : CreateOrder st u addr oracle = (st1, .ok (order, items))) :
    cartOfUser st1 u = [] ∧
    order.status = "pending" ∧
    List.Forall₂ (fun (c : CartItem) (oi : OrderItem) =>
      oi.productID = c.productID ∧ oi.quantity = c.quantity ∧
      ∃ p, findProduct st.products c.productID = some p ∧ oi.priceCents = p.priceCents)
      (cartOfUser st u) items := by
  obtain ⟨_, hstatus, _, hlines, hcart, _, _, _⟩ := CreateOrder_ok_master hOrd hIt h
  refine ⟨?_, hstatus, hlines⟩
  unfold cartOfUser
  rw [hcart, List.filter_filter, List.filter_eq_nil_iff]
  intro c _
  by_cases hc : (c.userID == u) = true <;> simp [hc]

theorem C5_cart_clear_exactness_witness :
    cartOfUser ⟨[⟨1, "sku", "P", "", 100, "USD", 2⟩], [],
      [⟨3, 7, 300, "USD", "pending", "addr", 10⟩], [⟨4, 3, 1, 100, 3⟩], 5, 11⟩ 7 = [] ∧
    ((⟨3, 7, 300, "USD", "pending", "addr", 10⟩ : Order)).status = "pending" :=
  ⟨(C5_cart_clear_exactness ⟨[⟨1, "sku", "P", "", 100, "USD", 5⟩], [⟨2, 7, 1, 3⟩], [], [], 3, 10⟩
      ⟨[⟨1, "sku", "P", "", 100, "USD", 2⟩], [], [⟨3, 7, 300, "USD", "pending", "addr", 10⟩],
        [⟨4, 3, 1, 100, 3⟩], 5, 11⟩
      7 "addr" noFail ⟨3, 7, 300, "USD", "pending", "addr", 10⟩ [⟨4, 3, 1, 100, 3⟩]
      (by decide) (by decide) (by decide)).1,
   (C5_cart_clear_exactness ⟨[⟨1, "sku", "P", "", 100, "USD", 5⟩], [⟨2, 7, 1, 3⟩], [], [], 3, 10⟩
      ⟨[⟨1, "sku", "P", "", 100, "USD", 2⟩], [], [⟨3, 7, 300, "USD", "pending", "addr", 10⟩],
        [⟨4, 3, 1, 100, 3⟩], 5, 11⟩
      7 "addr" noFail ⟨3, 7, 300, "USD", "pending", "addr", 10⟩ [⟨4, 3, 1, 100, 3⟩]
      (by decide) (by decide) (by decide)).2.1⟩

/-- The state a successful `CreateOrder` leaves, without any freshness
assumption: products table from the loop, order items appended. -/
theorem CreateOrder_state_ok_elim {st st1 : DBState} {u : Nat} {addr : String}
    {oracle : FailOracle} {x : Order × List OrderItem}
    (h : CreateOrder st u addr oracle = (st1, .ok x)) :
    ∃ res : TxLoopState,
      processCartItems st.products (cartOfUser st u) ⟨st.products, 0, "USD", []⟩ = .ok res ∧
      st1.products = res.products ∧
      st1.orderItems = st.orderItems ++ assignItemIDs (st.nextID + 1) st.nextID res.orderItems ∧
      st1.cartItems = st.cartItems.filter (fun c => !(c.userID == u)) ∧
      st.nextID ≤ st1.nextID := by
  unfold CreateOrder at h
  by_cases hemp : (cartOfUser st u).isEmpty = true
  · rw [if_pos hemp] at h
    injection h with h1 h2
    exact OpResult.noConfusion h2
  · rw [if_neg hemp] at h
    cases htx : createOrderTxBody st u addr (cartOfUser st u) oracle with
    | err e1 =>
      rw [htx] at h
      dsimp only at h
      injection h with h1 h2
      exact OpResult.noConfusion h2
    | ok p =>
      obtain ⟨st2, oid⟩ := p
      rw [htx] at h
      dsimp only at h
      obtain ⟨res, hres, hoid, hst2⟩ := createOrderTxBody_ok_elim htx
      cases hre : getOrderWithItems st2 oid with
      | none =>
        rw [hre] at h
        injection h with h1 h2
        exact OpResult.noConfusion h2
      | some oi =>
        rw [hre] at h
        injection h with h1 h2
        refine ⟨res, hres, ?_, ?_, ?_, ?_⟩ <;> rw [← h1, hst2]
        dsimp only
        omega

/-- One `CreateOrder` step preserves non-negative stocks and the product
rows, and each product's stock drops by exactly the quantity newly
receipted in order items for it. -/
theorem CreateOrder_stock_step (st : DBState) (u : Nat) (addr : String) (oracle : FailOracle)
    (hNonneg : ∀ p ∈ st.products, 0 ≤ p.stock)
    (hNodup : (st.products.map Product.id).Nodup) :
    (∀ p ∈ (CreateOrder st u addr oracle).1.products, 0 ≤ p.stock) ∧
    ((CreateOrder st u addr oracle).1.products.map Product.id = st.products.map Product.id) ∧
    (∀ pid s, stockOf st.products pid = some s →
      stockOf (CreateOrder st u addr oracle).1.products pid =
        some (s - (decrementedQty (CreateOrder st u addr oracle).1 pid -
          decrementedQty st pid))) := by
  cases hr : (CreateOrder st u addr oracle).2 with
  | err e =>
    rw [CreateOrder_err_state hr]
    refine ⟨hNonneg, rfl, fun pid s hs => ?_⟩
    rw [sub_self, sub_zero]
    exact hs
  | ok x =>
    have hpair : CreateOrder st u addr oracle = ((CreateOrder st u addr oracle).1, .ok x) := by
      rw [← hr]
    obtain ⟨res, hres, hprod, hitems, _, _⟩ := CreateOrder_state_ok_elim hpair
    obtain ⟨ni, h1, _, _, h4, h5, h6⟩ :=
      processCartItems_ok st.products (cartOfUser st u) ⟨st.products, 0, "USD", []⟩ res hres
    dsimp only at h1 h4 h5 h6
    rw [List.nil_append] at h1
    refine ⟨?_, ?_, ?_⟩
    · rw [hprod]
      exact h5 hNonneg
    · rw [hprod]
      exact h4
    · intro pid s hs
      rw [hprod, h6 hNodup pid s hs]
      have hdelta : decrementedQty (CreateOrder st u addr oracle).1 pid -
          decrementedQty st pid = qtySumFor pid ni := by
        unfold decrementedQty
        rw [hitems, qtySumFor_append, qtySumFor_assignItemIDs, ← h1]
        ring
      rw [hdelta]

/-- Iterating `CreateOrder`: stocks stay non-negative, product rows are
preserved, and each product's stock drops by exactly the total quantity
newly receipted for it. -/
theorem runOrders_stock (reqs : List CreateOrderReq) :
    ∀ st : DBState,
    (∀ p ∈ st.products, 0 ≤ p.stock) →
    (st.products.map Product.id).Nodup →
    (∀ p ∈ (runOrders st reqs).products, 0 ≤ p.stock) ∧
    ((runOrders st reqs).products.map Product.id = st.products.map Product.id) ∧
    (∀ pid s, stockOf st.products pid = some s →
      stockOf (runOrders st reqs).products pid =
        some (s - (decrementedQty (runOrders st reqs) pid - decrementedQty st pid))) := by
  induction reqs with
  | nil =>
    intro st hNonneg hNodup
    refine ⟨hNonneg, rfl, fun pid s hs => ?_⟩
    simp only [runOrders, List.foldl_nil, sub_self, sub_zero]
    exact hs
  | cons r reqs ih =>
    intro st hNonneg hNodup
    obtain ⟨hnn1, hids1, hacct1⟩ := CreateOrder_stock_step st r.userID r.addr r.oracle
      hNonneg hNodup
    have hNodup1 : ((CreateOrder st r.userID r.addr r.oracle).1.products.map Product.id).Nodup := by
      rw [hids1]
      exact hNodup
    obtain ⟨hnn2, hids2, hacct2⟩ := ih (CreateOrder st r.userID r.addr r.oracle).1 hnn1 hNodup1
    have hrun : runOrders st (r :: reqs) =
        runOrders (CreateOrder st r.userID r.addr r.oracle).1 reqs := rfl
    refine ⟨by rw [hrun]; exact hnn2, by rw [hrun, hids2, hids1], ?_⟩
    intro pid s hs
    have hstep := hacct1 pid s hs
    have := hacct2 pid _ hstep
    rw [hrun, this]
    congr 1
    omega

/-- C2: no overselling — starting from any state with non-negative
stocks, for every sequence of `CreateOrder` steps every reachable state
still has every stock non-negative, and for any product that started
with stock `S`, the total quantity successfully decremented for it
during the sequence (the quantity newly receipted in committed order
items) never exceeds `S`; the final stock is exactly `S` minus that
total and is non-negative. -/
theorem C2_stock_nonneg (st : DBState) (reqs : List CreateOrderReq) (pid : Nat) (S : Int)
    (hNonneg : ∀ p ∈ st.products, 0 ≤ p.stock)
    (hNodup : (st.products.map Product.id).Nodup)
    (hS : stockOf st.products pid = some S) :
    (∀ n : Nat, ∀ p ∈ (runOrders st (reqs.take n)).products, 0 ≤ p.stock) ∧
    decrementedQty (runOrders st reqs) pid - decrementedQty st pid ≤ S ∧
    ∃ t, stockOf (runOrders st reqs).products pid = some t ∧ 0 ≤ t ∧
      t + (decrementedQty (runOrders st reqs) pid - decrementedQty st pid) = S := by
  obtain ⟨hnn, _, hacct⟩ := runOrders_stock reqs st hNonneg hNodup
  have hst := hacct pid S hS
  obtain ⟨p, hp, hps⟩ := stockOf_eq_some_elim hst
  have hpmem : p ∈ (runOrders st reqs).products := findProduct_some_mem hp
  have hpnn : 0 ≤ p.stock := hnn p hpmem
  refine ⟨fun n => (runOrders_stock (reqs.take n) st hNonneg hNodup).1, by omega,
    S - (decrementedQty (runOrders st reqs) pid - decrementedQty st pid), hst, by omega, by ring⟩

theorem C2_stock_nonneg_witness :
    decrementedQty (runOrders
        ⟨[⟨1, "sku", "P", "", 100, "USD", 5⟩], [⟨2, 7, 1, 3⟩], [], [], 3, 10⟩
        [⟨7, "addr", noFail⟩, ⟨7, "addr", noFail⟩]) 1 -
      decrementedQty ⟨[⟨1, "sku", "P", "", 100, "USD", 5⟩], [⟨2, 7, 1, 3⟩], [], [], 3, 10⟩ 1 ≤
        5 :=
  (C2_stock_nonneg ⟨[⟨1, "sku", "P", "", 100, "USD", 5⟩], [⟨2, 7, 1, 3⟩], [], [], 3, 10⟩
    [⟨7, "addr", noFail⟩, ⟨7, "addr", noFail⟩] 1 5
    (by decide) (by decide) (by decide)).2.1

/-! ### Pagination -/

theorem pageOfOrders_total (l : List Order) (page size : Int) :
    (pageOfOrders l page size).2 = l.length := rfl

theorem pageOfOrders_page_clamp (l : List Order) (page size : Int) (h : page < 1) :
    pageOfOrders l page size = pageOfOrders l 1 size := by
  unfold pageOfOrders clampPage
  rw [if_pos h, if_neg (by omega : ¬(1 : Int) < 1)]

theorem pageOfOrders_size_default (l : List Order) (page size : Int) (h : size < 1) :
    pageOfOrders l page size = pageOfOrders l page 20 := by
  unfold pageOfOrders sizeDefault
  rw [if_pos h, if_neg (by omega : ¬(20 : Int) < 1)]

theorem pageOfOrders_size_cap (l : List Order) (page size : Int) (h : 100 < size) :
    pageOfOrders l page size = pageOfOrders l page 100 := by
  unfold pageOfOrders sizeDefault sizeCap
  rw [if_neg (by omega : ¬size < 1), if_pos (by omega : size > 100),
    if_neg (by omega : ¬(100 : Int) < 1), if_neg (by omega : ¬(100 : Int) > 100)]

theorem pageOfOrders_sorted (l : List Order) (page size : Int) :
    List.Sorted createdDesc (pageOfOrders l page size).1 := by
  unfold pageOfOrders
  have hfull : List.Sorted createdDesc (l.insertionSort createdDesc) :=
    List.sorted_insertionSort createdDesc l
  exact List.Pairwise.sublist ((List.take_sublist _ _).trans (List.drop_sublist _ _)) hfull

/-- The first two pages of size `N` concatenate to the first `2N`
elements of the sorted list. -/
theorem pageOfOrders_two_pages (l : List Order) (N : Int) (h1 : 1 ≤ N) (h2 : N ≤ 100) :
    (pageOfOrders l 1 N).1 ++ (pageOfOrders l 2 N).1 =
      (l.insertionSort createdDesc).take (N.toNat + N.toNat) := by
  unfold pageOfOrders clampPage sizeDefault sizeCap
  rw [if_neg (by omega : ¬(1 : Int) < 1), if_neg (by omega : ¬(2 : Int) < 1),
    if_neg (by omega : ¬N < 1), if_neg (by omega : ¬N > 100)]
  dsimp only
  have hoff1 : (((1 : Int) - 1) * N).toNat = 0 := by
    norm_num
  have hoff2 : (((2 : Int) - 1) * N).toNat = N.toNat := by
    norm_num
  rw [hoff1, hoff2, List.drop_zero, List.take_add]

theorem pageOfOrders_disjoint (l : List Order) (N : Int) (hl : l.Nodup)
    (h1 : 1 ≤ N) (h2 : N ≤ 100) :
    (pageOfOrders l 1 N).1.Disjoint (pageOfOrders l 2 N).1 := by
  have hsorted : (l.insertionSort createdDesc).Nodup :=
    ((List.perm_insertionSort createdDesc l).nodup_iff).mpr hl
  have htake : ((l.insertionSort createdDesc).take (N.toNat + N.toNat)).Nodup :=
    (List.take_sublist _ _).nodup hsorted
  rw [← pageOfOrders_two_pages l N h1 h2] at htake
  exact (List.nodup_append.mp htake).2.2

/-- C7: pagination clamping and determinism for `ListUserOrders` and
`ListAllOrders` — `page` is clamped to at least 1, `size` into [1,100]
with default 20; results are sorted by creation time descending; the
reported total is the full (filtered) count; and for every `N` in
[1,100], page 1 and page 2 of size `N` are disjoint (given distinct
order ids) and their concatenation, in order, is a prefix of the full
descending list. -/
theorem C7_pagination (st : DBState) (u : Nat) :
    ((∀ page size : Int, page < 1 →
        ListUserOrders st u page size = ListUserOrders st u 1 size) ∧
      (∀ page size : Int, size < 1 →
        ListUserOrders st u page size = ListUserOrders st u page 20) ∧
      (∀ page size : Int, 100 < size →
        ListUserOrders st u page size = ListUserOrders st u page 100) ∧
      (∀ page size : Int, List.Sorted createdDesc (ListUserOrders st u page size).1) ∧
      (∀ page size : Int, (ListUserOrders st u page size).2 =
        (st.orders.filter (fun o => o.userID == u)).length) ∧
      (∀ N : Int, 1 ≤ N → N ≤ 100 →
        (∃ rest, ((ListUserOrders st u 1 N).1 ++ (ListUserOrders st u 2 N).1) ++ rest =
          (st.orders.filter (fun o => o.userID == u)).insertionSort createdDesc) ∧
        ((st.orders.map Order.id).Nodup →
          (ListUserOrders st u 1 N).1.Disjoint (ListUserOrders st u 2 N).1))) ∧
    ((∀ page size : Int, page < 1 →
        ListAllOrders st page size = ListAllOrders st 1 size) ∧
      (∀ page size : Int, size < 1 →
        ListAllOrders st page size = ListAllOrders st page 20) ∧
      (∀ page size : Int, 100 < size →
        ListAllOrders st page size = ListAllOrders st page 100) ∧
      (∀ page size : Int, List.Sorted createdDesc (ListAllOrders st page size).1) ∧
      (∀ page size : Int, (ListAllOrders st page size).2 = st.orders.length) ∧
      (∀ N : Int, 1 ≤ N → N ≤ 100 →
        (∃ rest, ((ListAllOrders st 1 N).1 ++ (ListAllOrders st 2 N).1) ++ rest =
          st.orders.insertionSort createdDesc) ∧
        ((st.orders.map Order.id).Nodup →
          (ListAllOrders st 1 N).1.Disjoint (ListAllOrders st 2 N).1))) := by
  constructor
  · refine ⟨fun p s h => pageOfOrders_page_clamp _ p s h,
      fun p s h => pageOfOrders_size_default _ p s h,
      fun p s h => pageOfOrders_size_cap _ p s h,
      fun p s => pageOfOrders_sorted _ p s,
      fun p s => pageOfOrders_total _ p s, ?_⟩
    intro N h1 h2
    constructor
    · refine ⟨((st.orders.filter (fun o => o.userID == u)).insertionSort
        createdDesc).drop (N.toNat + N.toNat), ?_⟩
      unfold ListUserOrders
      rw [pageOfOrders_two_pages _ N h1 h2, List.take_append_drop]
    · intro hnd
      refine pageOfOrders_disjoint _ N ?_ h1 h2
      exact (List.Nodup.of_map Order.id hnd).filter _
  · refine ⟨fun p s h => pageOfOrders_page_clamp _ p s h,
      fun p s h => pageOfOrders_size_default _ p s h,
      fun p s h => pageOfOrders_size_cap _ p s h,
      fun p s => pageOfOrders_sorted _ p s,
      fun p s => pageOfOrders_total _ p s, ?_⟩
    intro N h1 h2
    constructor
    · refine ⟨(st.orders.insertionSort createdDesc).drop (N.toNat + N.toNat), ?_⟩
      unfold ListAllOrders
      rw [pageOfOrders_two_pages _ N h1 h2, List.take_append_drop]
    · intro hnd
      exact pageOfOrders_disjoint _ N (List.Nodup.of_map Order.id hnd) h1 h2

theorem C7_pagination_witness :
    (ListUserOrders ⟨[], [], [⟨1, 7, 100, "USD", "pending", "a", 5⟩,
        ⟨2, 7, 200, "USD", "pending", "a", 9⟩, ⟨3, 8, 50, "USD", "pending", "a", 7⟩],
        [], 4, 12⟩ 7 0 1 =
      ListUserOrders ⟨[], [], [⟨1, 7, 100, "USD", "pending", "a", 5⟩,
        ⟨2, 7, 200, "USD", "pending", "a", 9⟩, ⟨3, 8, 50, "USD", "pending", "a", 7⟩],
        [], 4, 12⟩ 7 1 1) ∧
    (ListUserOrders ⟨[], [], [⟨1, 7, 100, "USD", "pending", "a", 5⟩,
        ⟨2, 7, 200, "USD", "pending", "a", 9⟩, ⟨3, 8, 50, "USD", "pending", "a", 7⟩],
        [], 4, 12⟩ 7 1 1).1.Disjoint
      (ListUserOrders ⟨[], [], [⟨1, 7, 100, "USD", "pending", "a", 5⟩,
        ⟨2, 7, 200, "USD", "pending", "a", 9⟩, ⟨3, 8, 50, "USD", "pending", "a", 7⟩],
        [], 4, 12⟩ 7 2 1).1 ∧
    (ListAllOrders ⟨[], [], [⟨1, 7, 100, "USD", "pending", "a", 5⟩,
        ⟨2, 7, 200, "USD", "pending", "a", 9⟩, ⟨3, 8, 50, "USD", "pending", "a", 7⟩],
        [], 4, 12⟩ 3 200).2 = 3 := by
  refine ⟨?_, ?_, ?_⟩
  · exact (C7_pagination ⟨[], [], [⟨1, 7, 100, "USD", "pending", "a", 5⟩,
      ⟨2, 7, 200, "USD", "pending", "a", 9⟩, ⟨3, 8, 50, "USD", "pending", "a", 7⟩],
      [], 4, 12⟩ 7).1.1 0 1 (by decide)
  · exact ((C7_pagination ⟨[], [], [⟨1, 7, 100, "USD", "pending", "a", 5⟩,
      ⟨2, 7, 200, "USD", "pending", "a", 9⟩, ⟨3, 8, 50, "USD", "pending", "a", 7⟩],
      [], 4, 12⟩ 7).1.2.2.2.2.2 1 (by decide) (by decide)).2 (by decide)
  · exact (C7_pagination ⟨[], [], [⟨1, 7, 100, "USD", "pending", "a", 5⟩,
      ⟨2, 7, 200, "USD", "pending", "a", 9⟩, ⟨3, 8, 50, "USD", "pending", "a", 7⟩],
      [], 4, 12⟩ 7).2.2.2.2.2.1 3 200

/-! ### Cart uniqueness -/

/-- Two cart rows for different (user, product) pairs. -/
def pairDistinct (a b : CartItem) : Prop :=
  a.userID ≠ b.userID ∨ a.productID ≠ b.productID

/-- Cart well-formedness: at most one row per (user, product) pair,
distinct primary keys, and all keys below the freshness counter. -/
def cartWF (st : DBState) : Prop :=
  st.cartItems.Pairwise pairDistinct ∧
  (st.cartItems.map CartItem.id).Nodup ∧
  ∀ c ∈ st.cartItems, c.id < st.nextID

/-- Cart well-formedness survives any operation that only deletes cart
rows and does not decrease the freshness counter. -/
theorem cartWF_of_filter (st st1 : DBState) (f : CartItem → Bool)
    (hc : st1.cartItems = st.cartItems.filter f) (hn : st.nextID ≤ st1.nextID)
    (h : cartWF st) : cartWF st1 := by
  obtain ⟨hpw, hnd, hlt⟩ := h
  refine ⟨?_, ?_, ?_⟩
  · rw [hc]
    exact List.Pairwise.sublist (List.filter_sublist _) hpw
  · rw [hc]
    exact ((List.filter_sublist _).map CartItem.id).nodup hnd
  · intro c hcmem
    rw [hc] at hcmem
    have := hlt c (List.mem_of_mem_filter hcmem)
    omega

/-- Cart well-formedness survives any operation that leaves the cart
alone and does not decrease the freshness counter. -/
theorem cartWF_mono (st st1 : DBState) (hc : st1.cartItems = st.cartItems)
    (hn : st.nextID ≤ st1.nextID) (h : cartWF st) : cartWF st1 := by
  obtain ⟨hpw, hnd, hlt⟩ := h
  refine ⟨by rw [hc]; exact hpw, by rw [hc]; exact hnd, ?_⟩
  intro c hcmem
  rw [hc] at hcmem
  have := hlt c hcmem
  omega

/-- The row function of `AddOrUpdate`'s save branch only changes the
quantity column. -/
theorem addOrUpdate_row_fields (eid : Nat) (q : Int) (c : CartItem) :
    (if c.id == eid then { c with quantity := q } else c).userID = c.userID ∧
    (if c.id == eid then { c with quantity := q } else c).productID = c.productID ∧
    (if c.id == eid then { c with quantity := q } else c).id = c.id := by
  by_cases hx : (c.id == eid) = true <;> simp [hx]

/-- `AddOrUpdate` preserves cart well-formedness (with the counter
advanced past the inserted id). -/
theorem AddOrUpdate_wf (cart : List CartItem) (item : CartItem) (freshID : Nat)
    (hpw : cart.Pairwise pairDistinct)
    (hnd : (cart.map CartItem.id).Nodup)
    (hlt : ∀ c ∈ cart, c.id < freshID) :
    (AddOrUpdate cart item freshID).Pairwise pairDistinct ∧
    ((AddOrUpdate cart item freshID).map CartItem.id).Nodup ∧
    ∀ c ∈ AddOrUpdate cart item freshID, c.id < freshID + 1 := by
  unfold AddOrUpdate
  cases hf : cart.find? (fun c => c.userID == item.userID && c.productID == item.productID) with
  | some existing =>
    dsimp only
    refine ⟨?_, ?_, ?_⟩
    · refine List.pairwise_map.mpr (hpw.imp ?_)
      intro a b hab
      obtain ⟨hu1, hp1, _⟩ := addOrUpdate_row_fields existing.id item.quantity a
      obtain ⟨hu2, hp2, _⟩ := addOrUpdate_row_fields existing.id item.quantity b
      unfold pairDistinct at hab ⊢
      rw [hu1, hu2, hp1, hp2]
      exact hab
    · rw [List.map_map]
      have : (CartItem.id ∘ fun c =>
          if c.id == existing.id then { c with quantity := item.quantity } else c) =
          CartItem.id := by
        funext c
        exact (addOrUpdate_row_fields existing.id item.quantity c).2.2
      rw [this]
      exact hnd
    · intro c hcmem
      rcases List.mem_map.mp hcmem with ⟨r, hr, rfl⟩
      have := (addOrUpdate_row_fields existing.id item.quantity r).2.2
      rw [this]
      have := hlt r hr
      omega
  | none =>
    dsimp only
    have hnotpair : ∀ c ∈ cart,
        ¬(c.userID == item.userID && c.productID == item.productID) = true := by
      rw [← List.find?_eq_none]
      exact hf
    refine ⟨?_, ?_, ?_⟩
    · rw [List.pairwise_append]
      refine ⟨hpw, List.pairwise_singleton _ _, ?_⟩
      intro a ha b hb
      rw [List.mem_singleton] at hb
      subst hb
      have := hnotpair a ha
      unfold pairDistinct
      dsimp only
      by_cases hu : a.userID = item.userID
      · right
        intro hp
        exact this (by simp [hu, hp])
      · left
        exact hu
    · rw [List.map_append, List.nodup_append]
      refine ⟨hnd, by simp, ?_⟩
      intro x hx
      rcases List.mem_map.mp hx with ⟨r, hr, rfl⟩
      simp only [List.map_cons, List.map_nil, List.mem_singleton]
      have := hlt r hr
      omega
    · intro c hcmem
      rcases List.mem_append.mp hcmem with hcl | hcr
      · have := hlt c hcl
        omega
      · rw [List.mem_singleton] at hcr
        subst hcr
        show freshID < freshID + 1
        omega

/-- A successful `AddToCart` performed `AddOrUpdate` with a fresh id and
advanced the counter. -/
theorem AddToCart_ok_elim {st st1 : DBState} {u pid : Nat} {qty : Int}
    (h : AddToCart st u pid qty = (st1, .ok ())) :
    st1.cartItems = AddOrUpdate st.cartItems ⟨0, u, pid, qty⟩ st.nextID ∧
    st1.nextID = st.nextID + 1 := by
  unfold AddToCart at h
  cases hf : findProduct st.products pid with
  | none =>
    rw [hf] at h
    injection h with h1 h2
    exact OpResult.noConfusion h2
  | some p =>
    rw [hf] at h
    dsimp only at h
    by_cases hs : p.stock < qty
    · rw [if_pos hs] at h
      injection h with h1 h2
      exact OpResult.noConfusion h2
    · rw [if_neg hs] at h
      injection h with h1 h2
      rw [← h1]
      exact ⟨rfl, rfl⟩

/-- `AddToCart` preserves cart well-formedness. -/
theorem AddToCart_wf (st : DBState) (u pid : Nat) (qty : Int) (h : cartWF st) :
    cartWF (AddToCart st u pid qty).1 := by
  cases hr : (AddToCart st u pid qty).2 with
  | err e =>
    have hst : (AddToCart st u pid qty).1 = st := by
      unfold AddToCart at hr ⊢
      cases hf : findProduct st.products pid with
      | none => rfl
      | some p =>
        rw [hf] at hr
        dsimp only at hr ⊢
        by_cases hs : p.stock < qty
        · rw [if_pos hs]
        · rw [if_neg hs] at hr
          exact absurd hr (by intro hh; exact OpResult.noConfusion hh)
    rw [hst]
    exact h
  | ok x =>
    have hpair : AddToCart st u pid qty = ((AddToCart st u pid qty).1, .ok ()) := by
      rw [← hr]
    obtain ⟨hc, hn⟩ := AddToCart_ok_elim hpair
    obtain ⟨hpw, hnd, hlt⟩ := h
    obtain ⟨hpw1, hnd1, hlt1⟩ := AddOrUpdate_wf st.cartItems ⟨0, u, pid, qty⟩ st.nextID
      hpw hnd hlt
    refine ⟨by rw [hc]; exact hpw1, by rw [hc]; exact hnd1, ?_⟩
    intro c hcmem
    rw [hc] at hcmem
    have := hlt1 c hcmem
    omega

/-- Cart and counter are untouched by a status update. -/
theorem UpdateOrderStatus_cart (st : DBState) (oid : Nat) (status : String) :
    (UpdateOrderStatus st oid status).1.cartItems = st.cartItems ∧
    (UpdateOrderStatus st oid status).1.nextID = st.nextID := by
  unfold UpdateOrderStatus
  by_cases hc : validStatuses.contains status = true
  · rw [hc]
    cases hf : st.orders.find? (fun o => o.id == oid) with
    | none => exact ⟨rfl, rfl⟩
    | some o => exact ⟨rfl, rfl⟩
  · rw [Bool.not_eq_true] at hc
    rw [hc]
    exact ⟨rfl, rfl⟩

/-- States reachable from the empty database through the embedded
service operations. -/
inductive Reach : DBState → Prop where
  | init : Reach ⟨[], [], [], [], 0, 0⟩
  | createProduct (st : DBState) (sku name descr : String) (price : Int)
      (cur : String) (stock : Int) :
      Reach st → Reach (CreateProduct st sku name descr price cur stock)
  | updateProduct (st : DBState) (p : Product) : Reach st → Reach (UpdateProduct st p)
  | addToCart (st : DBState) (u pid : Nat) (qty : Int) :
      Reach st → Reach (AddToCart st u pid qty).1
  | removeFromCart (st : DBState) (u itemID : Nat) :
      Reach st → Reach (RemoveFromCart st u itemID)
  | clearCart (st : DBState) (u : Nat) : Reach st → Reach (ClearCart st u)
  | createOrder (st : DBState) (u : Nat) (addr : String) (oracle : FailOracle) :
      Reach st → Reach (CreateOrder st u addr oracle).1
  | updateOrderStatus (st : DBState) (oid : Nat) (status : String) :
      Reach st → Reach (UpdateOrderStatus st oid status).1

/-- Every reachable state has a well-formed cart. -/
theorem Reach_cartWF {st : DBState} (h : Reach st) : cartWF st := by
  induction h with
  | init => exact ⟨List.Pairwise.nil, List.nodup_nil, fun c hc => absurd hc (List.not_mem_nil c)⟩
  | createProduct st sku name descr price cur stock _ ih =>
    exact cartWF_mono st _ rfl (by unfold CreateProduct; dsimp only; omega) ih
  | updateProduct st p _ ih => exact cartWF_mono st _ rfl le_rfl ih
  | addToCart st u pid qty _ ih => exact AddToCart_wf st u pid qty ih
  | removeFromCart st u itemID _ ih => exact cartWF_of_filter st _ _ rfl le_rfl ih
  | clearCart st u _ ih => exact cartWF_of_filter st _ _ rfl le_rfl ih
  | createOrder st u addr oracle _ ih =>
    cases hr : (CreateOrder st u addr oracle).2 with
    | err e =>
      rw [CreateOrder_err_state hr]
      exact ih
    | ok x =>
      have hpair : CreateOrder st u addr oracle = ((CreateOrder st u addr oracle).1, .ok x) := by
        rw [← hr]
      obtain ⟨res, _, _, _, hcart, hnext⟩ := CreateOrder_state_ok_elim hpair
      exact cartWF_of_filter st _ _ hcart hnext ih
  | updateOrderStatus st oid status _ ih =>
    obtain ⟨hc, hn⟩ := UpdateOrderStatus_cart st oid status
    exact cartWF_mono st _ hc (by omega) ih

/-- C10: cart uniqueness and replace-on-re-add — in every reachable
state there is at most one cart row per (user, product) pair, and a
successful `AddToCart` for a pair that already has a row leaves exactly
one row for that pair, whose quantity equals the newly requested
quantity (the stored quantity is replaced, not added to), with no
duplicate row created. -/
theorem C10_cart_uniqueness :
    (∀ st : DBState, Reach st → st.cartItems.Pairwise pairDistinct) ∧
    (∀ (st : DBState) (u pid : Nat) (qty : Int) (st1 : DBState),
      Reach st →
      st.cartItems.filter (fun c => c.userID == u && c.productID == pid) ≠ [] →
      AddToCart st u pid qty = (st1, .ok ()) →
      (st1.cartItems.filter (fun c => c.userID == u && c.productID == pid)).length = 1 ∧
      ∀ c ∈ st1.cartItems.filter (fun c => c.userID == u && c.productID == pid),
        c.quantity = qty) := by
  constructor
  · intro st hreach
    exact (Reach_cartWF hreach).1
  · intro st u pid qty st1 hreach hne hadd
    obtain ⟨hpw, hnd, hlt⟩ := Reach_cartWF hreach
    obtain ⟨hcart, _⟩ := AddToCart_ok_elim hadd
    have hex : ∃ c ∈ st.cartItems, (c.userID == u && c.productID == pid) = true := by
      rcases List.exists_mem_of_ne_nil _ hne with ⟨c, hcmem⟩
      exact ⟨c, (List.mem_filter.mp hcmem).1, (List.mem_filter.mp hcmem).2⟩
    have hfindsome : (st.cartItems.find?
        (fun c => c.userID == u && c.productID == pid)).isSome = true :=
      List.find?_isSome.mpr hex
    cases hfind : st.cartItems.find? (fun c => c.userID == u && c.productID == pid) with
    | none => rw [hfind] at hfindsome; cases hfindsome
    | some existing =>
      have hexmem : existing ∈ st.cartItems := List.mem_of_find?_eq_some hfind
      have hexpred := List.find?_some hfind
      have hupd : AddOrUpdate st.cartItems ⟨0, u, pid, qty⟩ st.nextID =
          st.cartItems.map (fun c =>
            if c.id == existing.id then { c with quantity := qty } else c) := by
        unfold AddOrUpdate
        rw [hfind]
      have hcomm : (st.cartItems.map (fun c =>
          if c.id == existing.id then { c with quantity := qty } else c)).filter
            (fun c => c.userID == u && c.productID == pid) =
          (st.cartItems.filter (fun c => c.userID == u && c.productID == pid)).map
            (fun c => if c.id == existing.id then { c with quantity := qty } else c) := by
        refine filter_map_pred_inv _ _ ?_ st.cartItems
        intro c
        obtain ⟨hu, hp, _⟩ := addOrUpdate_row_fields existing.id qty c
        rw [hu, hp]
      have hlen : (st.cartItems.filter
          (fun c => c.userID == u && c.productID == pid)).length ≤ 1 := by
        refine length_filter_le_one_of_pairwise _ ?_ st.cartItems hpw
        intro a b hpa hpb hR
        simp only [Bool.and_eq_true, beq_iff_eq] at hpa hpb
        unfold pairDistinct at hR
        rcases hR with hR | hR
        · exact hR (by rw [hpa.1, hpb.1])
        · exact hR (by rw [hpa.2, hpb.2])
      have hexfilter : existing ∈ st.cartItems.filter
          (fun c => c.userID == u && c.productID == pid) :=
        List.mem_filter.mpr ⟨hexmem, hexpred⟩
      have hlen1 : (st.cartItems.filter
          (fun c => c.userID == u && c.productID == pid)).length = 1 := by
        have : 1 ≤ (st.cartItems.filter
            (fun c => c.userID == u && c.productID == pid)).length :=
          List.length_pos.mpr (List.ne_nil_of_mem hexfilter)
        omega
      obtain ⟨e0, he0⟩ := List.length_eq_one.mp hlen1
      have hee : e0 = existing := by
        rw [he0] at hexfilter
        exact (List.mem_singleton.mp hexfilter).symm
      subst hee
      rw [hcart, hupd, hcomm, he0]
      constructor
      · rfl
      · intro c hcmem
        rw [List.map_singleton, List.mem_singleton] at hcmem
        subst hcmem
        rw [if_pos (by simp)]

theorem C10_cart_uniqueness_witness :
    ((⟨[⟨0, "sku", "P", "", 100, "USD", 5⟩], [⟨1, 7, 0, 2⟩], [], [], 2, 0⟩ :
        DBState).cartItems.Pairwise pairDistinct) ∧
    ((⟨[⟨0, "sku", "P", "", 100, "USD", 5⟩], [⟨1, 7, 0, 3⟩], [], [], 3, 0⟩ :
        DBState).cartItems.filter
        (fun c => c.userID == 7 && c.productID == 0)).length = 1 ∧
    ∀ c ∈ (⟨[⟨0, "sku", "P", "", 100, "USD", 5⟩], [⟨1, 7, 0, 3⟩], [], [], 3, 0⟩ :
        DBState).cartItems.filter (fun c => c.userID == 7 && c.productID == 0),
      c.quantity = 3 := by
  have hreach : Reach ⟨[⟨0, "sku", "P", "", 100, "USD", 5⟩], [⟨1, 7, 0, 2⟩], [], [], 2, 0⟩ :=
    Reach.addToCart _ 7 0 2 (Reach.createProduct _ "sku" "P" "" 100 "USD" 5 Reach.init)
  have h2 := C10_cart_uniqueness.2
    ⟨[⟨0, "sku", "P", "", 100, "USD", 5⟩], [⟨1, 7, 0, 2⟩], [], [], 2, 0⟩ 7 0 3
    ⟨[⟨0, "sku", "P", "", 100, "USD", 5⟩], [⟨1, 7, 0, 3⟩], [], [], 3, 0⟩
    hreach (by decide) (by decide)
  exact ⟨C10_cart_uniqueness.1 _ hreach, h2.1, h2.2⟩

end GoEcom
